import Mathlib

/-!
Shallow embedding of the `atree` repository's `BasicArray` component
(`src/basicarray.go`) together with the minimal surrounding infrastructure it
uses (storage ids, slab storage, storable payloads, the CBOR byte forms the
encoder emits).  Parts of the repository that `basicarray.go` depends on but
whose source is not available (flag byte layout, storable codec, slab storage)
are modelled from the specification; each such definition says so in its doc
comment.  Machine integers (`uint32` header fields, `uint64` values) are
modelled as `Nat` with explicit reduction modulo `2 ^ 32` / `2 ^ 64` at the
points where the Go code performs fixed-width arithmetic.
-/

namespace Atree

/-- Modelled from the spec (§3 SlabID): 16-byte stable identity, 8-byte owning
address plus 8-byte monotonically issued index.  Each half is an unsigned
64-bit quantity, held here as a `Nat` (< 2^64 in any state the code creates). -/
structure StorageID where
  address : Nat
  index : Nat
deriving DecidableEq, Repr

/-- Modelled from the spec (§3): the sentinel id is all-zero. -/
def StorageIDUndefined : StorageID := ⟨0, 0⟩

/-- Header carried by every array slab: id, count (`uint32`), size (`uint32`).
Declarations of this structure are not in `src/`; the field set is taken from
the spec (§3 Slab header) and from the uses in `src/basicarray.go`. -/
structure ArraySlabHeader where
  id : StorageID
  size : Nat
  count : Nat
deriving DecidableEq, Repr

/-- Storable payloads that can sit in a basic array.  Modelled from the spec
(§3 Storable): an inline encoded value (here the repository's `Uint64Value`)
or a SlabID pointer (`StorageIDStorable`); in addition, `slab` is an inline
nested `BasicArrayDataSlab` (carried here as its header and element list),
because `BasicArray.Storable` in `src/basicarray.go` returns the nested
array's root slab itself as the storable. -/
inductive Storable where
  | uint64 (v : Nat)
  | idPointer (id : StorageID)
  | slab (header : ArraySlabHeader) (elements : List Storable)

mutual

/-- Boolean equality on storables (for decidable equality of the nested
inductive; `deriving` cannot produce it). -/
def Storable.beq : Storable → Storable → Bool
  | .uint64 a, .uint64 b => decide (a = b)
  | .idPointer a, .idPointer b => decide (a = b)
  | .slab h1 e1, .slab h2 e2 => decide (h1 = h2) && beqStorableList e1 e2
  | _, _ => false

/-- Boolean equality on storable lists, mutual with `Storable.beq`. -/
def beqStorableList : List Storable → List Storable → Bool
  | [], [] => true
  | a :: as, b :: bs => Storable.beq a b && beqStorableList as bs
  | _, _ => false

end

mutual

/-- Soundness of `Storable.beq`. -/
def Storable.eq_of_beq : ∀ {a b : Storable}, Storable.beq a b = true → a = b
  | .uint64 a, .uint64 b, h => by
    have hab : a = b := of_decide_eq_true h
    rw [hab]
  | .idPointer a, .idPointer b, h => by
    have hab : a = b := of_decide_eq_true h
    rw [hab]
  | .slab h1 e1, .slab h2 e2, h => by
    have h' := h
    unfold Storable.beq at h'
    have hh : h1 = h2 := of_decide_eq_true (Bool.and_elim_left h')
    have he : e1 = e2 := eq_of_beqStorableList (Bool.and_elim_right h')
    rw [hh, he]

/-- Soundness of `beqStorableList`, mutual with `Storable.eq_of_beq`. -/
def eq_of_beqStorableList : ∀ {as bs : List Storable},
    beqStorableList as bs = true → as = bs
  | [], [], _ => rfl
  | a :: as, b :: bs, h => by
    have h' := h
    unfold beqStorableList at h'
    have hab : a = b := Storable.eq_of_beq (Bool.and_elim_left h')
    have hrest : as = bs := eq_of_beqStorableList (Bool.and_elim_right h')
    rw [hab, hrest]

end

mutual

/-- Reflexivity of `Storable.beq`. -/
def Storable.beq_self : ∀ a : Storable, Storable.beq a a = true
  | .uint64 a => by simp [Storable.beq]
  | .idPointer a => by simp [Storable.beq]
  | .slab h e => by
    unfold Storable.beq
    simp [beqStorableList_self e]

/-- Reflexivity of `beqStorableList`, mutual with `Storable.beq_self`. -/
def beqStorableList_self : ∀ as : List Storable, beqStorableList as as = true
  | [] => rfl
  | a :: as => by
    unfold beqStorableList
    simp [Storable.beq_self a, beqStorableList_self as]

end

instance : DecidableEq Storable := fun a b =>
  if h : Storable.beq a b = true then isTrue (Storable.eq_of_beq h)
  else isFalse (fun he => h (he ▸ Storable.beq_self a))

/-- `uint32` addition as performed by Go on the header fields. -/
def u32add (a b : Nat) : Nat := (a + b) % 2 ^ 32

/-- `uint32` subtraction (wrapping) as performed by Go on the header fields. -/
def u32sub (a b : Nat) : Nat := (a % 2 ^ 32 + (2 ^ 32 - b % 2 ^ 32)) % 2 ^ 32

/-- Big-endian bytes of `n` in a fixed width `w` (the value encoded is
`n % 256 ^ w`), as `binary.BigEndian.PutUint64` and friends produce. -/
def beBytes : Nat → Nat → List Nat
  | 0, _ => []
  | w + 1, n => (n / 256 ^ w) % 256 :: beBytes w n

/-- Read `w` big-endian bytes from the front of a byte stream. -/
def readBE : Nat → List Nat → Option (Nat × List Nat)
  | 0, r => some (0, r)
  | _ + 1, [] => none
  | w + 1, b :: r => (readBE w r).map (fun p => (b * 256 ^ w + p.1, p.2))

/-- Canonical (shortest-form) CBOR encoding of an unsigned integer, as the
external `fxamacker/cbor` encoder produces for `EncodeUint64`.  The argument
is reduced modulo `2 ^ 64` (the Go value is a `uint64`). -/
def encodeCBORUint (n : Nat) : List Nat :=
  let v := n % 2 ^ 64
  if v < 24 then [v]
  else if v < 256 then [24, v]
  else if v < 65536 then [25] ++ beBytes 2 v
  else if v < 4294967296 then [26] ++ beBytes 4 v
  else [27] ++ beBytes 8 v

/-- Modelled from the spec (§6.1 flags): bit 7 marks a root slab. -/
def maskSlabRoot : Nat := 0x80

/-- Modelled from the spec (§6.1 flags, bits 0–4 family): the `BasicArray`
family value within the array kind (low three bits `0b011`, array kind has
bits 3–4 clear), consistent with the repository's flag constants absent from
`src/` and with the array-data (`0b000`) / array-meta (`0b001`) flag bytes
appearing in the test expectations. -/
def maskBasicArray : Nat := 0x03

mutual

/-- Byte encoding of a storable.  The `uint64` case is the external CBOR
codec; the pointer case is modelled from the spec (§6.1): CBOR tag
`0xD8 0xFF` followed by the 16-byte SlabID.  A nested slab element encodes
by `BasicArrayDataSlab.Encode` itself (version byte, flag byte, 9-byte CBOR
array head, then its own elements), emitted inline. -/
def Storable.encodeBytes : Storable → List Nat
  | .uint64 v => encodeCBORUint v
  | .idPointer id => [0xd8, 0xff] ++ beBytes 8 id.address ++ beBytes 8 id.index
  | .slab _ elements =>
    [0x00, maskBasicArray ||| maskSlabRoot] ++
      ((0x80 ||| 27) :: beBytes 8 elements.length) ++
      encodeStorableListBytes elements

/-- The element loop of `BasicArrayDataSlab.Encode`, mutual with
`Storable.encodeBytes`. -/
def encodeStorableListBytes : List Storable → List Nat
  | [] => []
  | e :: es => e.encodeBytes ++ encodeStorableListBytes es

end

/-- `ByteSize()` of a storable: the repository's size accounting, equal to the
length of its encoding for the codec forms (`Uint64Value.ByteSize` mirrors
the CBOR integer size ladder; a pointer storable is tag (2 bytes) + 16-byte
id); a nested slab reports its `header.size`
(`BasicArrayDataSlab.ByteSize()` in `src/basicarray.go`). -/
def Storable.byteSize : Storable → Nat
  | .uint64 v =>
    let v' := v % 2 ^ 64
    if v' < 24 then 1
    else if v' < 256 then 2
    else if v' < 65536 then 3
    else if v' < 4294967296 then 5
    else 9
  | .idPointer _ => 18
  | .slab h _ => h.size

/-- The storable forms the external element codec can produce: an inline
value or a SlabID pointer.  Inline nested slabs are written by
`BasicArrayDataSlab.Encode` but no storable decoder reads them back. -/
def Storable.inlineOrPointer : Storable → Bool
  | .uint64 _ => true
  | .idPointer _ => true
  | .slab _ _ => false

/-- Decode one storable from the front of a byte stream (external
`decodeStorable` CBOR codec for the two storable forms of this model). -/
def decodeStorableBytes : List Nat → Option (Storable × List Nat)
  | [] => none
  | b :: r =>
    if b < 24 then some (.uint64 b, r)
    else if b = 24 then
      match r with
      | x :: r' => some (.uint64 x, r')
      | [] => none
    else if b = 25 then (readBE 2 r).map (fun p => (.uint64 p.1, p.2))
    else if b = 26 then (readBE 4 r).map (fun p => (.uint64 p.1, p.2))
    else if b = 27 then (readBE 8 r).map (fun p => (.uint64 p.1, p.2))
    else if b = 0xd8 then
      match r with
      | t :: r' =>
        if t = 0xff then
          match readBE 8 r' with
          | some (addr, r'') =>
            (readBE 8 r'').map (fun p => (.idPointer ⟨addr, p.1⟩, p.2))
          | none => none
        else none
      | [] => none
    else none

/-- Decode a CBOR array head (definite-length forms), returning the element
count, as the external codec's `DecodeArrayHead` does. -/
def decodeArrayHead : List Nat → Option (Nat × List Nat)
  | [] => none
  | b :: r =>
    if 0x80 ≤ b ∧ b ≤ 0x97 then some (b - 0x80, r)
    else if b = 0x98 then readBE 1 r
    else if b = 0x99 then readBE 2 r
    else if b = 0x9a then readBE 4 r
    else if b = 0x9b then readBE 8 r
    else none

/-- `BasicArrayDataSlab` from `src/basicarray.go`: header plus the ordered
element slice. -/
structure BasicArrayDataSlab where
  header : ArraySlabHeader
  elements : List Storable
deriving DecidableEq

/-- The slab viewed as a storable element.  `BasicArray.Storable` in
`src/basicarray.go` returns the array's root slab itself. -/
def BasicArrayDataSlab.asStorable (a : BasicArrayDataSlab) : Storable :=
  .slab a.header a.elements

/-- The slabs a `SlabStorage` can hold in this development.  `storableSlab` is
modelled from the spec (§3): a single oversized payload stored alone (held
here as a `uint64` payload); `basicArray` is the slab type of `src/`. -/
inductive Slab where
  | basicArray (s : BasicArrayDataSlab)
  | storableSlab (payload : Nat)
deriving DecidableEq

/-- Modelled from the spec (§4.1 Slab storage): an in-memory cache of slabs
keyed by id, plus the per-address monotone index counter used by
`GenerateStorageID` (a single counter suffices for the single-address
scenarios of this development). -/
structure SlabStorage where
  slabs : List (StorageID × Slab)
  nextIndex : Nat
deriving DecidableEq

/-- Modelled from the spec (§4.1): `retrieve(id)` returns the live slab for
`id` when present. -/
def SlabStorage.retrieve (st : SlabStorage) (id : StorageID) : Option Slab :=
  (st.slabs.find? (fun p => decide (p.1 = id))).map (fun p => p.2)

/-- Modelled from the spec (§4.1): `store(id, slab)` records the slab in the
cache (replacing any previous slab under that id); it never fails. -/
def SlabStorage.store (st : SlabStorage) (id : StorageID) (s : Slab) : SlabStorage :=
  { st with slabs := (id, s) :: st.slabs.filter (fun p => decide (p.1 ≠ id)) }

/-- Modelled from the spec (§4.1): `remove(id)` records the deletion. -/
def SlabStorage.removeSlab (st : SlabStorage) (id : StorageID) : SlabStorage :=
  { st with slabs := st.slabs.filter (fun p => decide (p.1 ≠ id)) }

/-- Modelled from the spec (§4.1): `generate_id(address)` issues a fresh id
for that address and never returns the sentinel. -/
def SlabStorage.generateStorageID (st : SlabStorage) (address : Nat) :
    StorageID × SlabStorage :=
  (⟨address, st.nextIndex + 1⟩, { st with nextIndex := st.nextIndex + 1 })

/-- `basicArrayDataSlabPrefixSize = 1 + 8` from `src/basicarray.go`. -/
def basicArrayDataSlabPrefixSize : Nat := 1 + 8

/-- `NewBasicArrayDataSlab` from `src/basicarray.go`: fresh id, size set to
the prefix constant, zero count, no elements. -/
def NewBasicArrayDataSlab (st : SlabStorage) (address : Nat) :
    BasicArrayDataSlab × SlabStorage :=
  let p := st.generateStorageID address
  ({ header := { id := p.1, size := basicArrayDataSlabPrefixSize, count := 0 },
     elements := [] }, p.2)

/-- `BasicArrayDataSlab.Get` from `src/basicarray.go`: out-of-bounds indices
are an error (`none`); storage is not consulted. -/
def BasicArrayDataSlab.get (a : BasicArrayDataSlab) (index : Nat) : Option Storable :=
  if h : a.elements.length ≤ index then none
  else some (a.elements.get ⟨index, by omega⟩)

/-- Result of a mutating slab operation: the post-state of the receiver and
the storage, and whether the operation succeeded. -/
structure SlabOpResult where
  slab : BasicArrayDataSlab
  storage : SlabStorage
  ok : Bool
deriving DecidableEq

/-- `BasicArrayDataSlab.Set` from `src/basicarray.go`: bounds check, replace
the element, adjust `header.size` by the byte-size delta (uint32 arithmetic,
left to right), store the slab. -/
def BasicArrayDataSlab.set (a : BasicArrayDataSlab) (st : SlabStorage)
    (index : Nat) (v : Storable) : SlabOpResult :=
  if h : a.elements.length ≤ index then ⟨a, st, false⟩
  else
    let oldElem := a.elements.get ⟨index, by omega⟩
    let a' : BasicArrayDataSlab :=
      { header := { a.header with
          size := u32add (u32sub a.header.size oldElem.byteSize) v.byteSize },
        elements := a.elements.set index v }
    ⟨a', st.store a'.header.id (.basicArray a'), true⟩

/-- `BasicArrayDataSlab.Insert` from `src/basicarray.go`: `index > len` is an
error; `index = len` appends; otherwise the element slice is shifted up by
one from `index`; `header.count` is incremented and `header.size` grows by
the element's byte size (uint32 arithmetic); the slab is stored. -/
def BasicArrayDataSlab.insert (a : BasicArrayDataSlab) (st : SlabStorage)
    (index : Nat) (v : Storable) : SlabOpResult :=
  if a.elements.length < index then ⟨a, st, false⟩
  else
    let elements' :=
      if index = a.elements.length then a.elements ++ [v]
      else a.elements.take index ++ v :: a.elements.drop index
    let a' : BasicArrayDataSlab :=
      { header := { a.header with
          count := u32add a.header.count 1,
          size := u32add a.header.size v.byteSize },
        elements := elements' }
    ⟨a', st.store a'.header.id (.basicArray a'), true⟩

/-- `BasicArrayDataSlab.Remove` from `src/basicarray.go`: bounds check, three
slice cases (first, last, middle), `header.count` decremented and
`header.size` shrunk by the removed element's byte size (uint32 wrapping
arithmetic); the slab is stored.  Returns the removed storable on success. -/
def BasicArrayDataSlab.remove (a : BasicArrayDataSlab) (st : SlabStorage)
    (index : Nat) : SlabOpResult × Option Storable :=
  if h : a.elements.length ≤ index then (⟨a, st, false⟩, none)
  else
    let v := a.elements.get ⟨index, by omega⟩
    let elements' :=
      if index = 0 then a.elements.drop 1
      else if index = a.elements.length - 1 then a.elements.take (a.elements.length - 1)
      else a.elements.take index ++ a.elements.drop (index + 1)
    let a' : BasicArrayDataSlab :=
      { header := { a.header with
          count := u32sub a.header.count 1,
          size := u32sub a.header.size v.byteSize },
        elements := elements' }
    (⟨a', st.store a'.header.id (.basicArray a'), true⟩, some v)

/-- `BasicArrayDataSlab.Count` from `src/basicarray.go`:
`uint64(len(a.elements))`. -/
def BasicArrayDataSlab.count (a : BasicArrayDataSlab) : Nat :=
  a.elements.length

/-- Array slab family read back from a flag byte. -/
inductive SlabArrayType where
  | undefined
  | basicArray
  | arrayData
  | arrayMeta
deriving DecidableEq, Repr

/-- Modelled from the spec (§6.1): `getSlabArrayType` — bits 3–4 select the
array kind, the low three bits the array family. -/
def getSlabArrayType (flag : Nat) : SlabArrayType :=
  if flag % 256 / 8 % 4 ≠ 0 then .undefined
  else if flag % 8 = 0 then .arrayData
  else if flag % 8 = 1 then .arrayMeta
  else if flag % 8 = 3 then .basicArray
  else .undefined

/-- `BasicArrayDataSlab.Encode` from `src/basicarray.go`: a `0x00` version
byte, the flag byte `maskBasicArray | maskSlabRoot`, a 9-byte CBOR array head
(`0x80 | 27` then the element count as 8 big-endian bytes), then each
element's storable encoding in order. -/
def BasicArrayDataSlab.encodeBytes (a : BasicArrayDataSlab) : List Nat :=
  let flag := maskBasicArray ||| maskSlabRoot
  [0x00, flag] ++ ((0x80 ||| 27) :: beBytes 8 a.elements.length)
    ++ (a.elements.map Storable.encodeBytes).flatten

/-- The element-decoding loop of `newBasicArrayDataSlabFromData`: decode the
given number of storables in sequence. -/
def decodeElements : Nat → List Nat → Option (List Storable × List Nat)
  | 0, rest => some ([], rest)
  | n + 1, rest =>
    match decodeStorableBytes rest with
    | none => none
    | some (s, r) =>
      match decodeElements n r with
      | none => none
      | some (l, r') => some (s :: l, r')

/-- `newBasicArrayDataSlabFromData` from `src/basicarray.go`: length check,
flag check via `getSlabArrayType`, CBOR array head, then `elemCount`
storables; the header takes the given id, `size = uint32(len(data))` and
`count = uint32(elemCount)`. -/
def newBasicArrayDataSlabFromData (id : StorageID) (data : List Nat) :
    Option BasicArrayDataSlab :=
  if data.length < 2 then none
  else if getSlabArrayType (data.getD 1 0) ≠ .basicArray then none
  else
    match decodeArrayHead (data.drop 2) with
    | none => none
    | some (elemCount, rest) =>
      match decodeElements elemCount rest with
      | none => none
      | some (elements, _) =>
        some { header := { id := id, size := data.length % 2 ^ 32,
                           count := elemCount % 2 ^ 32 },
               elements := elements }

/-- `BasicArrayDataSlab.Split` from `src/basicarray.go`: always the
"not applicable" error; receiver and storage untouched. -/
def BasicArrayDataSlab.split (a : BasicArrayDataSlab) (st : SlabStorage) :
    (BasicArrayDataSlab × SlabStorage) × Except String (Slab × Slab) :=
  ((a, st), .error "not applicable")

/-- `BasicArrayDataSlab.Merge` from `src/basicarray.go`: always the
"not applicable" error; receiver untouched. -/
def BasicArrayDataSlab.merge (a : BasicArrayDataSlab) (_ : Slab) :
    BasicArrayDataSlab × Except String Unit :=
  (a, .error "not applicable")

/-- `BasicArrayDataSlab.LendToRight` from `src/basicarray.go`: always the
"not applicable" error; receiver untouched. -/
def BasicArrayDataSlab.lendToRight (a : BasicArrayDataSlab) (_ : Slab) :
    BasicArrayDataSlab × Except String Unit :=
  (a, .error "not applicable")

/-- `BasicArrayDataSlab.BorrowFromRight` from `src/basicarray.go`: always the
"not applicable" error; receiver untouched. -/
def BasicArrayDataSlab.borrowFromRight (a : BasicArrayDataSlab) (_ : Slab) :
    BasicArrayDataSlab × Except String Unit :=
  (a, .error "not applicable")

/-- Modelled from the spec (§6.2): `targetThreshold`, the configured maximum
slab byte size; default 1024. -/
def targetThreshold : Nat := 1024

/-- Modelled from the spec (§6.2, invariant 2): `maxThreshold =
targetThreshold`. -/
def maxThreshold : Nat := targetThreshold

/-- Modelled from the spec (§6.2, invariant 2): `minThreshold =
targetThreshold / 2`. -/
def minThreshold : Nat := targetThreshold / 2

/-- Values handled at the container level: the repository's `Uint64Value`
(whose `Storable(...)` is itself and whose `DeepRemove` is a no-op), and a
nested `BasicArray` value rooted at a basic array data slab
(`BasicArrayDataSlab.StoredValue` in `src/basicarray.go` returns
`&BasicArray{storage, a}`). -/
inductive Value where
  | uint64 (v : Nat)
  | array (root : BasicArrayDataSlab)
deriving DecidableEq

/-- `Value.Storable(storage, address)`: `Uint64Value` is its own storable;
`BasicArray.Storable` (`src/basicarray.go` line 93) returns the root slab. -/
def Value.toStorable : Value → Storable
  | .uint64 v => .uint64 v
  | .array root => root.asStorable

/-- `Storable.StoredValue(storage)`.  `Uint64Value` returns itself; an inline
nested slab returns the `BasicArray` rooted at it
(`BasicArrayDataSlab.StoredValue`, `src/basicarray.go` line 24).  For a
pointer storable, modelled from the spec (§3): retrieve the referenced slab
and take its stored value — a Storable slab yields its payload value, a
basic array slab yields the `BasicArray` rooted at it; a missing slab is an
error. -/
def Storable.storedValue (s : Storable) (st : SlabStorage) : Option Value :=
  match s with
  | .uint64 v => some (.uint64 v)
  | .slab h es => some (.array ⟨h, es⟩)
  | .idPointer id =>
    match st.retrieve id with
    | some (.storableSlab payload) => some (.uint64 payload)
    | some (.basicArray s') => some (.array s')
    | none => none

/-- `Storable.DeepRemove(storage)`.  `Uint64Value` frees nothing; a pointer
storable removes the referenced slab (`StorageIDStorable.DeepRemove =
storage.Remove(id)`, modelled from the spec §4.4); an inline nested slab
removes its own id (`BasicArrayDataSlab.DeepRemove = storage.Remove(a.ID())`,
`src/basicarray.go` lines 28–30). -/
def Storable.deepRemoveStorable (s : Storable) (st : SlabStorage) : SlabStorage :=
  match s with
  | .uint64 _ => st
  | .idPointer id => st.removeSlab id
  | .slab h _ => st.removeSlab h.id

/-- `BasicArray` from `src/basicarray.go`: a container rooted at a single
basic array data slab (the `storage` field is threaded explicitly here). -/
structure BasicArray where
  root : BasicArrayDataSlab
deriving DecidableEq

/-- `NewBasicArray` from `src/basicarray.go`. -/
def NewBasicArray (st : SlabStorage) (address : Nat) : BasicArray × SlabStorage :=
  let p := NewBasicArrayDataSlab st address
  ({ root := p.1 }, p.2)

/-- `BasicArray.StorageID` from `src/basicarray.go`: the root slab's id. -/
def BasicArray.storageID (a : BasicArray) : StorageID :=
  a.root.header.id

/-- `NewBasicArrayWithRootID` from `src/basicarray.go`: reject the sentinel
id, retrieve the slab (absence is an error), require it to be a
`BasicArrayDataSlab`, and root the array at it. -/
def NewBasicArrayWithRootID (st : SlabStorage) (id : StorageID) :
    Option BasicArray :=
  if id = StorageIDUndefined then none
  else
    match st.retrieve id with
    | none => none
    | some (.basicArray s) => some { root := s }
    | some (.storableSlab _) => none

/-- Container-level operations of `BasicArray` (`Get`, `Set`, `Insert`,
`Append`, `Remove` from `src/basicarray.go`). -/
inductive BAOp where
  | get (i : Nat)
  | set (i : Nat) (v : Value)
  | insert (i : Nat) (v : Value)
  | append (v : Value)
  | remove (i : Nat)
deriving DecidableEq

/-- One container-level operation, returning the post-state of the container
and the storage (errors leave the state as the methods do on their early
returns).  `Append` inserts at index `uint64(a.root.header.count)`. -/
def BasicArray.applyOp (a : BasicArray) (st : SlabStorage) :
    BAOp → BasicArray × SlabStorage
  | .get _ => (a, st)
  | .set i v =>
    let r := a.root.set st i v.toStorable
    ({ root := r.slab }, r.storage)
  | .insert i v =>
    let r := a.root.insert st i v.toStorable
    ({ root := r.slab }, r.storage)
  | .append v =>
    let r := a.root.insert st a.root.header.count v.toStorable
    ({ root := r.slab }, r.storage)
  | .remove i =>
    let r := (a.root.remove st i).1
    ({ root := r.slab }, r.storage)

/-- Run a sequence of container-level operations. -/
def BasicArray.runOps (a : BasicArray) (st : SlabStorage) :
    List BAOp → BasicArray × SlabStorage
  | [] => (a, st)
  | op :: ops =>
    let p := a.applyOp st op
    p.1.runOps p.2 ops

/-- Slab-level operations of `BasicArrayDataSlab` (arbitrary storables). -/
inductive SlabOp where
  | get (i : Nat)
  | set (i : Nat) (v : Storable)
  | insert (i : Nat) (v : Storable)
  | remove (i : Nat)
deriving DecidableEq

/-- One slab-level operation; `none` when the operation reports an error. -/
def BasicArrayDataSlab.applySlabOp (a : BasicArrayDataSlab) (st : SlabStorage) :
    SlabOp → Option (BasicArrayDataSlab × SlabStorage)
  | .get i => (a.get i).map (fun _ => (a, st))
  | .set i v =>
    let r := a.set st i v
    if r.ok then some (r.slab, r.storage) else none
  | .insert i v =>
    let r := a.insert st i v
    if r.ok then some (r.slab, r.storage) else none
  | .remove i =>
    let r := a.remove st i
    if r.1.ok then some (r.1.slab, r.1.storage) else none

/-- Run a sequence of slab-level operations; `none` as soon as one fails. -/
def BasicArrayDataSlab.runSlabOps (a : BasicArrayDataSlab) (st : SlabStorage) :
    List SlabOp → Option (BasicArrayDataSlab × SlabStorage)
  | [] => some (a, st)
  | op :: ops =>
    match a.applySlabOp st op with
    | none => none
    | some (a', st') => a'.runSlabOps st' ops

/-- The loop of `BasicArray.DeepRemove` (`src/basicarray.go` lines 62–91),
running `count` iterations with `index = prevIndex - 1` from `count - 1` down
to `0`: `Get` the storable, `Remove` it (which stores the shrunken root and
converts the removed storable to a value), deep-remove the value — a no-op
for `Uint64Value`, and the recursive `BasicArray.DeepRemove` (drain the
nested root, then remove its slab id) for a nested array value — then
deep-remove the storable.  The Go recursion has no bound and diverges on
cyclic storage references; `fuel` bounds the number of loop iterations plus
nested descents, so every terminating execution is reproduced for all
sufficiently large fuel, and `none` means the run was still incomplete. -/
def deepRemoveLoop : Nat → Nat → BasicArrayDataSlab → SlabStorage →
    Option (BasicArrayDataSlab × SlabStorage)
  | _, 0, a, st => some (a, st)
  | 0, _ + 1, _, _ => none
  | fuel + 1, n + 1, a, st =>
    match a.get n with
    | none => none
    | some storable =>
      let r := a.remove st n
      match r.2 with
      | none => none
      | some storable2 =>
        match storable2.storedValue r.1.storage with
        | none => none
        | some value =>
          match (match value with
                 | .uint64 _ => some r.1.storage
                 | .array root =>
                   match deepRemoveLoop fuel root.count root r.1.storage with
                   | none => none
                   | some pr => some (pr.2.removeSlab pr.1.header.id)) with
          | none => none
          | some st1 => deepRemoveLoop fuel n r.1.slab
              (storable.deepRemoveStorable st1)

/-- `Value.DeepRemove(storage)`: a no-op for `Uint64Value`; for a nested
array value it is `BasicArray.DeepRemove` of the nested root (drain, then
remove the root slab). -/
def Value.deepRemoveValue (fuel : Nat) (v : Value) (st : SlabStorage) :
    Option SlabStorage :=
  match v with
  | .uint64 _ => some st
  | .array root =>
    match deepRemoveLoop fuel root.count root st with
    | none => none
    | some pr => some (pr.2.removeSlab pr.1.header.id)

/-- `BasicArray.DeepRemove` from `src/basicarray.go`: drain every element
from the last index down to index 0 (deep-removing each removed value and its
storable), then remove the root slab itself
(`BasicArrayDataSlab.DeepRemove = storage.Remove(a.ID())`). -/
def BasicArray.deepRemove (fuel : Nat) (a : BasicArray) (st : SlabStorage) :
    Option SlabStorage :=
  match deepRemoveLoop fuel a.root.count a.root st with
  | none => none
  | some p => some (p.2.removeSlab p.1.header.id)

/-- The uint64-reduction a storable undergoes on an encode/decode round trip:
each `uint64` field comes back reduced modulo `2 ^ 64` (the identity on every
value a Go `uint64` can hold; inline nested slabs are never produced by the
codec). -/
def canonify : Storable → Storable
  | .uint64 v => .uint64 (v % 2 ^ 64)
  | .idPointer id => .idPointer ⟨id.address % 2 ^ 64, id.index % 2 ^ 64⟩
  | .slab h es => .slab h es

/-- An empty storage, used by the concrete witnesses below. -/
def emptyStorage : SlabStorage := ⟨[], 0⟩

/-- A freshly created basic array data slab with its storage. -/
def exampleNew : BasicArrayDataSlab × SlabStorage :=
  NewBasicArrayDataSlab emptyStorage 1

/-- A concrete slab exercising every storable form, used by witnesses. -/
def exampleSlab : BasicArrayDataSlab :=
  { header := { id := ⟨1, 2⟩, size := 39, count := 4 },
    elements := [.uint64 5, .uint64 200, .uint64 1099511627776,
                 .idPointer ⟨3, 4⟩] }

/-- A nested one-element basic array slab stored at id `⟨2, 2⟩`, referenced
by pointer from `exampleDeepSlab`. -/
def exampleNestedTarget : BasicArrayDataSlab :=
  { header := { id := ⟨2, 2⟩, size := 10, count := 1 }, elements := [.uint64 1] }

/-- A slab exercising every element form for the deep-remove witness: an
inline value, an inline nested array slab, a pointer to a nested array root,
and a pointer to a storable slab. -/
def exampleDeepSlab : BasicArrayDataSlab :=
  { header := { id := ⟨1, 1⟩, size := 56, count := 4 },
    elements := [.uint64 7, .slab ⟨⟨3, 3⟩, 10, 1⟩ [.uint64 2],
                 .idPointer ⟨2, 2⟩, .idPointer ⟨4, 4⟩] }

/-- A storage holding `exampleDeepSlab`, the nested array roots it reaches,
and the storable slab it points at. -/
def exampleDeepStorage : SlabStorage :=
  ⟨[(⟨1, 1⟩, .basicArray exampleDeepSlab),
    (⟨2, 2⟩, .basicArray exampleNestedTarget),
    (⟨3, 3⟩, .basicArray ⟨⟨⟨3, 3⟩, 10, 1⟩, [.uint64 2]⟩),
    (⟨4, 4⟩, .storableSlab 99)], 4⟩

/-- A slab containing an inline nested (empty) array slab: its `Encode`
output embeds the nested slab's raw bytes, which the element codec cannot
read back. -/
def nestedExample : BasicArrayDataSlab :=
  { header := { id := ⟨1, 2⟩, size := 18, count := 1 },
    elements := [.slab ⟨⟨5, 5⟩, 9, 0⟩ []] }

/-- The slab state after `n` successful `Insert(0, Uint64Value(0))` calls on
`a` (specification device for the operation-sequence lemmas below: the
element `Uint64Value(0)` has byte size 1, `header.count` and `header.size`
advance with uint32 wraparound). -/
def insZeros (n : Nat) (a : BasicArrayDataSlab) : BasicArrayDataSlab :=
  { header := { id := a.header.id,
                size := (a.header.size + n) % 2 ^ 32,
                count := (a.header.count + n) % 2 ^ 32 },
    elements := List.replicate n (.uint64 0) ++ a.elements }

theorem find?_and_ne (l : List (StorageID × Slab)) (id id' : StorageID)
    (h : id' ≠ id) :
    l.find? (fun p => !decide (p.1 = id) && decide (p.1 = id')) =
      l.find? (fun p => decide (p.1 = id')) := by
  induction l with
  | nil => rfl
  | cons hd tl ih =>
    by_cases hhd : hd.1 = id
    · have h3 : (decide (id = id')) = false := by
        simp only [decide_eq_false_iff_not]
        exact fun hc => h hc.symm
      simp [List.find?_cons, hhd, h3, ih]
    · by_cases h2 : hd.1 = id'
      · have h3 : (decide (id' = id)) = false := by
          simp only [decide_eq_false_iff_not]
          exact h
        simp [List.find?_cons, hhd, h2, h3]
      · simp [List.find?_cons, hhd, h2, ih]

theorem find?_and_self (l : List (StorageID × Slab)) (id : StorageID) :
    l.find? (fun p => !decide (p.1 = id) && decide (p.1 = id)) = none := by
  induction l with
  | nil => rfl
  | cons hd tl ih =>
    by_cases hhd : hd.1 = id <;> simp [List.find?_cons, hhd, ih]

theorem retrieve_store_self (st : SlabStorage) (id : StorageID) (s : Slab) :
    (st.store id s).retrieve id = some s := by
  simp [SlabStorage.store, SlabStorage.retrieve, List.find?_cons]

theorem retrieve_store_other (st : SlabStorage) (id id' : StorageID) (s : Slab)
    (h : id' ≠ id) :
    (st.store id s).retrieve id' = st.retrieve id' := by
  have h2 : (decide (id = id')) = false := by
    simp only [decide_eq_false_iff_not]
    exact fun hc => h hc.symm
  simp [SlabStorage.store, SlabStorage.retrieve, List.find?_cons, h2,
    find?_and_ne _ _ _ h]

theorem retrieve_removeSlab_self (st : SlabStorage) (id : StorageID) :
    (st.removeSlab id).retrieve id = none := by
  simp [SlabStorage.removeSlab, SlabStorage.retrieve, find?_and_self]

theorem retrieve_removeSlab_other (st : SlabStorage) (id id' : StorageID)
    (h : id' ≠ id) :
    (st.removeSlab id).retrieve id' = st.retrieve id' := by
  simp [SlabStorage.removeSlab, SlabStorage.retrieve, find?_and_ne _ _ _ h]

theorem set_header_id (a : BasicArrayDataSlab) (st : SlabStorage) (i : Nat)
    (v : Storable) : (a.set st i v).slab.header.id = a.header.id := by
  unfold BasicArrayDataSlab.set
  split <;> rfl

theorem insert_header_id (a : BasicArrayDataSlab) (st : SlabStorage) (i : Nat)
    (v : Storable) : (a.insert st i v).slab.header.id = a.header.id := by
  unfold BasicArrayDataSlab.insert
  split <;> rfl

theorem remove_header_id (a : BasicArrayDataSlab) (st : SlabStorage) (i : Nat) :
    (a.remove st i).1.slab.header.id = a.header.id := by
  unfold BasicArrayDataSlab.remove
  split <;> rfl

/-- Claim C1 (code bug): on the freshly created empty `BasicArrayDataSlab`
(the empty operation sequence), `header.size` is
`basicArrayDataSlabPrefixSize = 1 + 8 = 9`, but `Encode` emits 11 bytes
(1 version + 1 flag + 9-byte CBOR array head), so the header's size field is
not the byte length of the encoding. -/
theorem basicArray_new_slab_size_vs_encode :
    (NewBasicArrayDataSlab emptyStorage 1).1.header.size = 9 ∧
    ((NewBasicArrayDataSlab emptyStorage 1).1.encodeBytes).length = 11 ∧
    (9 : Nat) ≠ 11 := by
  refine ⟨rfl, ?_, by decide⟩
  rfl

/-- Claim C5 (counterexample): the byte at offset 2 of a basic array data
slab encoding — the first byte of the CBOR array header, right after the
version and flag bytes — is `0x9b` (the 9-byte definite-length form), not
`0x99` (the 3-byte form the claim asserts). -/
theorem basicArray_encode_head_not_0x99 :
    ((NewBasicArrayDataSlab emptyStorage 1).1.encodeBytes)[2]? = some 0x9b ∧
    (0x9b : Nat) ≠ 0x99 := by
  refine ⟨rfl, by decide⟩

/-- Claim C5 (amended): the encoding of a `BasicArrayDataSlab` is 1 version
byte `0x00`, 1 flag byte (`maskBasicArray | maskSlabRoot`), a CBOR
definite-length array header in the fixed 9-byte `0x9b` form (initial byte
`0x9b` followed by the element count as 8 big-endian bytes), then each
element's Storable encoding in order. -/
theorem basicArray_encode_layout (a : BasicArrayDataSlab) :
    a.encodeBytes = 0x00 :: (maskBasicArray ||| maskSlabRoot) :: 0x9b ::
      (beBytes 8 a.elements.length ++
        (a.elements.map Storable.encodeBytes).flatten) := rfl

/-- Claim C3: `Get`, `Set` and `Remove` on a `BasicArrayDataSlab` fail
exactly when the index is at least the number of elements, `Insert` fails
exactly when the index exceeds the number of elements, and a failing
operation leaves the slab (elements, `header.count`, `header.size`) and the
storage untouched.  (Storage `Store` always succeeds in this model, matching
the claim's side condition.) -/
theorem basicArray_bounds_behavior (a : BasicArrayDataSlab) (st : SlabStorage)
    (i : Nat) (v : Storable) :
    ((a.get i).isNone ↔ a.elements.length ≤ i) ∧
    ((a.set st i v).ok = false ↔ a.elements.length ≤ i) ∧
    ((a.insert st i v).ok = false ↔ a.elements.length < i) ∧
    ((a.remove st i).1.ok = false ↔ a.elements.length ≤ i) ∧
    (a.elements.length ≤ i →
      (a.set st i v).slab = a ∧ (a.set st i v).storage = st ∧
      (a.remove st i).1.slab = a ∧ (a.remove st i).1.storage = st ∧
      (a.remove st i).2 = none) ∧
    (a.elements.length < i →
      (a.insert st i v).slab = a ∧ (a.insert st i v).storage = st) := by
  refine ⟨?_, ?_, ?_, ?_, ?_, ?_⟩
  · unfold BasicArrayDataSlab.get
    split <;> simp_all
  · unfold BasicArrayDataSlab.set
    split <;> simp_all
  · unfold BasicArrayDataSlab.insert
    split <;> simp_all
  · unfold BasicArrayDataSlab.remove
    split <;> simp_all
  · intro h
    unfold BasicArrayDataSlab.set BasicArrayDataSlab.remove
    refine ⟨?_, ?_, ?_, ?_, ?_⟩ <;> (split <;> first | rfl | omega)
  · intro h
    unfold BasicArrayDataSlab.insert
    refine ⟨?_, ?_⟩ <;> (split <;> first | rfl | omega)

theorem basicArray_bounds_behavior_witness :
    exampleSlab.elements.length ≤ 7 ∧
    (exampleSlab.set emptyStorage 7 (.uint64 0)).slab = exampleSlab := by
  exact ⟨by decide,
    ((basicArray_bounds_behavior exampleSlab emptyStorage 7
      (.uint64 0)).2.2.2.2.1 (by decide)).1⟩

/-- Claim C7: `NewBasicArrayWithRootID` fails exactly when the id is the
all-zero sentinel, when no slab with that id is in storage, or when the
retrieved slab is not a `BasicArrayDataSlab`; otherwise it returns a
`BasicArray` rooted at the retrieved slab. -/
theorem NewBasicArrayWithRootID_behavior (st : SlabStorage) (id : StorageID) :
    (NewBasicArrayWithRootID st id = none ↔
      id = StorageIDUndefined ∨ st.retrieve id = none ∨
        (∃ payload, st.retrieve id = some (.storableSlab payload))) ∧
    (∀ s, id ≠ StorageIDUndefined → st.retrieve id = some (.basicArray s) →
      NewBasicArrayWithRootID st id = some { root := s }) := by
  constructor
  · unfold NewBasicArrayWithRootID
    split
    · simp_all
    · rename_i hne
      cases hr : st.retrieve id with
      | none => simp [hr, hne]
      | some sl => cases sl <;> simp [hr, hne]
  · intro s hne hr
    unfold NewBasicArrayWithRootID
    simp [hne, hr]

theorem NewBasicArrayWithRootID_behavior_witness :
    ((⟨1, 1⟩ : StorageID) ≠ StorageIDUndefined) ∧
    NewBasicArrayWithRootID exampleDeepStorage ⟨1, 1⟩ =
      some { root := exampleDeepSlab } := by
  exact ⟨by decide,
    (NewBasicArrayWithRootID_behavior exampleDeepStorage ⟨1, 1⟩).2
      exampleDeepSlab (by decide) (by decide)⟩

theorem applyOp_root_id (a : BasicArray) (st : SlabStorage) (op : BAOp) :
    (a.applyOp st op).1.root.header.id = a.root.header.id := by
  cases op <;>
    simp [BasicArray.applyOp, set_header_id, insert_header_id, remove_header_id]

/-- Claim C6: the root storage id of a `BasicArray` is unchanged by any
sequence of container-level `Get`, `Set`, `Insert`, `Append`, `Remove`
operations — in particular by growing the array from empty and removing
every element back to empty. -/
theorem basicArray_root_id_stable (a : BasicArray) (st : SlabStorage)
    (ops : List BAOp) :
    ((a.runOps st ops).1).storageID = a.storageID := by
  induction ops generalizing a st with
  | nil => rfl
  | cons op ops ih =>
    show ((a.applyOp st op).1.runOps (a.applyOp st op).2 ops).1.storageID = _
    rw [ih]
    show (a.applyOp st op).1.root.header.id = a.root.header.id
    exact applyOp_root_id a st op

theorem insert_at_zero (a : BasicArrayDataSlab) (st : SlabStorage)
    (v : Storable) :
    a.insert st 0 v =
      ⟨{ header := { id := a.header.id,
                     size := u32add a.header.size v.byteSize,
                     count := u32add a.header.count 1 },
         elements := v :: a.elements },
       st.store a.header.id (.basicArray
         { header := { id := a.header.id,
                       size := u32add a.header.size v.byteSize,
                       count := u32add a.header.count 1 },
           elements := v :: a.elements }), true⟩ := by
  unfold BasicArrayDataSlab.insert
  have h0 : ¬ (a.elements.length < 0) := by omega
  cases he : a.elements with
  | nil => simp [he]
  | cons x xs => simp [he]

theorem store_store (st : SlabStorage) (id : StorageID) (s₁ s₂ : Slab) :
    (st.store id s₁).store id s₂ = st.store id s₂ := by
  unfold SlabStorage.store
  simp [List.filter_cons, List.filter_filter]

theorem insZeros_header_id (n : Nat) (a : BasicArrayDataSlab) :
    (insZeros n a).header.id = a.header.id := rfl

theorem insZeros_count (n : Nat) (a : BasicArrayDataSlab) :
    (insZeros n a).header.count = (a.header.count + n) % 2 ^ 32 := rfl

theorem insZeros_length (n : Nat) (a : BasicArrayDataSlab) :
    (insZeros n a).elements.length = n + a.elements.length := by
  simp [insZeros]

theorem insZeros_insZeros (m k : Nat) (a : BasicArrayDataSlab) :
    insZeros m (insZeros k a) = insZeros (m + k) a := by
  unfold insZeros
  have h2 : (2 : Nat) ^ 32 = 4294967296 := by norm_num
  have hs : ∀ x : Nat, ((x + k) % 2 ^ 32 + m) % 2 ^ 32 = (x + (m + k)) % 2 ^ 32 := by
    intro x
    rw [h2]
    omega
  simp [hs, ← List.append_assoc, ← List.replicate_add]
  exact ⟨by omega, by omega⟩

theorem insert_zero_as_insZeros (a : BasicArrayDataSlab) :
    ({ header := { id := a.header.id,
                   size := u32add a.header.size (Storable.byteSize (.uint64 0)),
                   count := u32add a.header.count 1 },
       elements := .uint64 0 :: a.elements } : BasicArrayDataSlab) =
      insZeros 1 a := by
  unfold insZeros u32add
  have hb : Storable.byteSize (.uint64 0) = 1 := rfl
  simp [hb]

theorem runSlabOps_insert_zeros (n : Nat) (a : BasicArrayDataSlab)
    (st : SlabStorage) (h : 1 ≤ n) :
    a.runSlabOps st (List.replicate n (.insert 0 (.uint64 0))) =
      some (insZeros n a, st.store a.header.id (.basicArray (insZeros n a))) := by
  induction n generalizing a st with
  | zero => omega
  | succ m ih =>
    rw [List.replicate_succ]
    show (match a.applySlabOp st (.insert 0 (.uint64 0)) with
      | none => none
      | some (a', st') => a'.runSlabOps st' (List.replicate m (.insert 0 (.uint64 0)))) = _
    rw [show a.applySlabOp st (.insert 0 (.uint64 0)) =
        some ((a.insert st 0 (.uint64 0)).slab, (a.insert st 0 (.uint64 0)).storage) by
      simp [BasicArrayDataSlab.applySlabOp, insert_at_zero]]
    rw [insert_at_zero]
    simp only [insert_zero_as_insZeros]
    obtain rfl | hm : m = 0 ∨ 1 ≤ m := by omega
    · rfl
    · show BasicArrayDataSlab.runSlabOps _ _ _ = _
      rw [ih _ _ hm]
      rw [insZeros_insZeros, insZeros_header_id, store_store]

theorem set_ok_bound (a : BasicArrayDataSlab) (st : SlabStorage) (i : Nat)
    (v : Storable) (h : (a.set st i v).ok = true) : ¬ a.elements.length ≤ i := by
  intro hc
  unfold BasicArrayDataSlab.set at h
  rw [dif_pos hc] at h
  exact absurd h (by simp)

theorem insert_ok_bound (a : BasicArrayDataSlab) (st : SlabStorage) (i : Nat)
    (v : Storable) (h : (a.insert st i v).ok = true) :
    ¬ a.elements.length < i := by
  intro hc
  unfold BasicArrayDataSlab.insert at h
  rw [if_pos hc] at h
  exact absurd h (by simp)

theorem remove_ok_bound (a : BasicArrayDataSlab) (st : SlabStorage) (i : Nat)
    (h : (a.remove st i).1.ok = true) : ¬ a.elements.length ≤ i := by
  intro hc
  unfold BasicArrayDataSlab.remove at h
  rw [dif_pos hc] at h
  exact absurd h (by simp)

theorem set_result (a : BasicArrayDataSlab) (st : SlabStorage) (i : Nat)
    (v : Storable) (h : ¬ a.elements.length ≤ i) :
    (a.set st i v).ok = true ∧
    (a.set st i v).slab.header.count = a.header.count ∧
    (a.set st i v).slab.elements.length = a.elements.length := by
  unfold BasicArrayDataSlab.set
  rw [dif_neg h]
  exact ⟨rfl, rfl, by simp⟩

theorem insert_result (a : BasicArrayDataSlab) (st : SlabStorage) (i : Nat)
    (v : Storable) (h : ¬ a.elements.length < i) :
    (a.insert st i v).ok = true ∧
    (a.insert st i v).slab.header.count = u32add a.header.count 1 ∧
    (a.insert st i v).slab.elements.length = a.elements.length + 1 := by
  unfold BasicArrayDataSlab.insert
  rw [if_neg h]
  refine ⟨rfl, rfl, ?_⟩
  show (if i = a.elements.length then a.elements ++ [v]
    else a.elements.take i ++ v :: a.elements.drop i).length = _
  split
  · simp
  · simp
    omega

theorem remove_result (a : BasicArrayDataSlab) (st : SlabStorage) (i : Nat)
    (h : ¬ a.elements.length ≤ i) :
    (a.remove st i).1.ok = true ∧
    (a.remove st i).1.slab.header.count = u32sub a.header.count 1 ∧
    (a.remove st i).1.slab.elements.length = a.elements.length - 1 := by
  unfold BasicArrayDataSlab.remove
  rw [dif_neg h]
  refine ⟨rfl, rfl, ?_⟩
  show (if i = 0 then a.elements.drop 1
    else if i = a.elements.length - 1 then a.elements.take (a.elements.length - 1)
    else a.elements.take i ++ a.elements.drop (i + 1)).length = _
  split
  · simp
  · split
    · simp
    · simp
      omega

theorem applySlabOp_count_inv (a : BasicArrayDataSlab) (st : SlabStorage)
    (op : SlabOp) (p : BasicArrayDataSlab × SlabStorage)
    (hp : a.applySlabOp st op = some p)
    (h : a.header.count = a.elements.length % 2 ^ 32) :
    p.1.header.count = p.1.elements.length % 2 ^ 32 := by
  cases op with
  | get i =>
    have hp' : (a.get i).map (fun _ => (a, st)) = some p := hp
    cases hg : a.get i with
    | none => rw [hg] at hp'; exact absurd hp' (by simp)
    | some s =>
      rw [hg] at hp'
      simp only [Option.map_some'] at hp'
      injection hp' with hp'
      rw [← hp']
      exact h
  | set i v =>
    have hp' : (if (a.set st i v).ok = true
        then some ((a.set st i v).slab, (a.set st i v).storage)
        else none) = some p := hp
    by_cases hok : (a.set st i v).ok = true
    · rw [if_pos hok] at hp'
      injection hp' with hp'
      obtain ⟨-, hcnt, hlen⟩ := set_result a st i v (set_ok_bound a st i v hok)
      rw [← hp']
      simp only [hcnt, hlen]
      exact h
    · rw [if_neg hok] at hp'
      exact absurd hp' (by simp)
  | insert i v =>
    have hp' : (if (a.insert st i v).ok = true
        then some ((a.insert st i v).slab, (a.insert st i v).storage)
        else none) = some p := hp
    by_cases hok : (a.insert st i v).ok = true
    · rw [if_pos hok] at hp'
      injection hp' with hp'
      obtain ⟨-, hcnt, hlen⟩ := insert_result a st i v (insert_ok_bound a st i v hok)
      rw [← hp']
      rw [hcnt, hlen, h]
      unfold u32add
      have h2 : (2 : Nat) ^ 32 = 4294967296 := by norm_num
      rw [h2]
      omega
    · rw [if_neg hok] at hp'
      exact absurd hp' (by simp)
  | remove i =>
    have hp' : (if (a.remove st i).1.ok = true
        then some ((a.remove st i).1.slab, (a.remove st i).1.storage)
        else none) = some p := hp
    by_cases hok : (a.remove st i).1.ok = true
    · rw [if_pos hok] at hp'
      injection hp' with hp'
      have hb := remove_ok_bound a st i hok
      obtain ⟨-, hcnt, hlen⟩ := remove_result a st i hb
      rw [← hp']
      rw [hcnt, hlen, h]
      unfold u32sub
      have h2 : (2 : Nat) ^ 32 = 4294967296 := by norm_num
      rw [h2]
      have hlen1 : 1 ≤ a.elements.length := by omega
      omega
    · rw [if_neg hok] at hp'
      exact absurd hp' (by simp)

theorem runSlabOps_count_inv (ops : List SlabOp) :
    ∀ (a : BasicArrayDataSlab) (st : SlabStorage)
      (p : BasicArrayDataSlab × SlabStorage),
      a.runSlabOps st ops = some p →
      a.header.count = a.elements.length % 2 ^ 32 →
      p.1.header.count = p.1.elements.length % 2 ^ 32 := by
  induction ops with
  | nil =>
    intro a st p hp h
    injection hp with hp
    rw [← hp]
    exact h
  | cons op ops ih =>
    intro a st p hp h
    unfold BasicArrayDataSlab.runSlabOps at hp
    cases hstep : a.applySlabOp st op with
    | none => rw [hstep] at hp; exact absurd hp (by simp)
    | some q =>
      rw [hstep] at hp
      exact ih q.1 q.2 p hp (applySlabOp_count_inv a st op q hstep h)

/-- Claim C9 (amended): for every slab reached from a fresh empty slab by
successful operations, `header.count` is the length of the element slice
reduced modulo `2 ^ 32` (Go `uint32` wraparound) and `Count()` returns the
untruncated length; `Insert` advances `header.count` by one with uint32
wraparound, `Remove` decrements it by one with uint32 wraparound, and `Set`
leaves it unchanged. -/
theorem basicArray_count_invariant (st0 : SlabStorage) (addr : Nat)
    (ops : List SlabOp) (p : BasicArrayDataSlab × SlabStorage)
    (hrun : (NewBasicArrayDataSlab st0 addr).1.runSlabOps
      (NewBasicArrayDataSlab st0 addr).2 ops = some p) :
    p.1.header.count = p.1.elements.length % 2 ^ 32 ∧
    p.1.count = p.1.elements.length ∧
    (∀ (a : BasicArrayDataSlab) (st : SlabStorage) (i : Nat) (v : Storable),
      (a.insert st i v).ok = true →
        (a.insert st i v).slab.header.count = u32add a.header.count 1) ∧
    (∀ (a : BasicArrayDataSlab) (st : SlabStorage) (i : Nat),
      (a.remove st i).1.ok = true →
        (a.remove st i).1.slab.header.count = u32sub a.header.count 1) ∧
    (∀ (a : BasicArrayDataSlab) (st : SlabStorage) (i : Nat) (v : Storable),
      (a.set st i v).slab.header.count = a.header.count) := by
  refine ⟨runSlabOps_count_inv ops _ _ p hrun (by rfl), rfl, ?_, ?_, ?_⟩
  · intro a st i v hok
    exact (insert_result a st i v (insert_ok_bound a st i v hok)).2.1
  · intro a st i hok
    exact (remove_result a st i (remove_ok_bound a st i hok)).2.1
  · intro a st i v
    unfold BasicArrayDataSlab.set
    split <;> rfl

theorem basicArray_count_invariant_witness :
    exampleNew.1.runSlabOps exampleNew.2 [.insert 0 (.uint64 5)] =
      some (⟨⟨⟨1, 1⟩, 10, 1⟩, [.uint64 5]⟩,
            ⟨[(⟨1, 1⟩, .basicArray ⟨⟨⟨1, 1⟩, 10, 1⟩, [.uint64 5]⟩)], 1⟩) ∧
    (⟨⟨⟨1, 1⟩, 10, 1⟩, [.uint64 5]⟩ : BasicArrayDataSlab).header.count =
      [Storable.uint64 5].length % 2 ^ 32 := by
  exact ⟨by decide,
    (basicArray_count_invariant emptyStorage 1 [.insert 0 (.uint64 5)]
      (⟨⟨⟨1, 1⟩, 10, 1⟩, [.uint64 5]⟩,
       ⟨[(⟨1, 1⟩, .basicArray ⟨⟨⟨1, 1⟩, 10, 1⟩, [.uint64 5]⟩)], 1⟩)
      (by decide)).1⟩

/-- Claim C9 (counterexample): after `2 ^ 32` successful `Insert(0, 0)`
operations from a fresh empty slab, `header.count` has wrapped to `0` while
the element slice has length `2 ^ 32`, so `header.count` is not the length of
the elements slice. -/
theorem basicArray_count_wrap :
    (exampleNew.1.runSlabOps exampleNew.2
        (List.replicate (2 ^ 32) (.insert 0 (.uint64 0)))).map
      (fun p => (p.1.header.count, p.1.elements.length)) = some (0, 2 ^ 32) ∧
    (0 : Nat) ≠ 2 ^ 32 := by
  constructor
  · rw [runSlabOps_insert_zeros _ _ _ (by norm_num)]
    simp only [Option.map_some', insZeros_count, insZeros_length]
    have hc : exampleNew.1.header.count = 0 := rfl
    have he : exampleNew.1.elements.length = 0 := rfl
    rw [hc, he]
    norm_num
  · norm_num

theorem insert_elements (a : BasicArrayDataSlab) (st : SlabStorage) (i : Nat)
    (v : Storable) (h : i ≤ a.elements.length) :
    (a.insert st i v).ok = true ∧
    (a.insert st i v).slab.elements =
      a.elements.take i ++ v :: a.elements.drop i := by
  unfold BasicArrayDataSlab.insert
  rw [if_neg (by omega)]
  refine ⟨rfl, ?_⟩
  show (if i = a.elements.length then a.elements ++ [v]
    else a.elements.take i ++ v :: a.elements.drop i) = _
  split
  · rename_i hi
    subst hi
    simp
  · rfl

theorem runSlabOps_insert_zero_list (ws : List Storable) :
    ∀ (a : BasicArrayDataSlab) (st : SlabStorage),
    ∃ h' st', a.runSlabOps st (ws.map (fun w => SlabOp.insert 0 w)) =
      some (⟨h', ws.reverse ++ a.elements⟩, st') := by
  induction ws with
  | nil =>
    intro a st
    exact ⟨a.header, st, rfl⟩
  | cons w ws ih =>
    intro a st
    obtain ⟨h', st', hrun⟩ := ih (a.insert st 0 w).slab (a.insert st 0 w).storage
    refine ⟨h', st', ?_⟩
    show (match a.applySlabOp st (.insert 0 w) with
      | none => none
      | some (a', st') => a'.runSlabOps st' (ws.map (fun w => SlabOp.insert 0 w))) = _
    rw [show a.applySlabOp st (.insert 0 w) =
        some ((a.insert st 0 w).slab, (a.insert st 0 w).storage) by
      simp [BasicArrayDataSlab.applySlabOp, insert_at_zero]]
    show BasicArrayDataSlab.runSlabOps _ _ _ = _
    rw [hrun]
    have helems : (a.insert st 0 w).slab.elements = w :: a.elements := by
      rw [insert_at_zero]
    rw [helems]
    simp

/-- Claim C4: `Insert(i, v)` with `i ≤ count` succeeds, places `v` at index
`i` and shifts every element previously at an index `≥ i` up by one; and
starting from a fresh empty slab, performing `Insert(0, v i)` for
`i = n-1, …, 0` yields an array in which `Get(k)` returns `v k` for every
`k < n`. -/
theorem basicArray_insert_places_and_shifts :
    (∀ (a : BasicArrayDataSlab) (st : SlabStorage) (i : Nat) (v : Storable),
      i ≤ a.elements.length →
      (a.insert st i v).ok = true ∧
      (a.insert st i v).slab.elements[i]? = some v ∧
      (∀ k, k < i → (a.insert st i v).slab.elements[k]? = a.elements[k]?) ∧
      (∀ k, i ≤ k → (a.insert st i v).slab.elements[k + 1]? = a.elements[k]?)) ∧
    (∀ (n : Nat) (vf : Nat → Storable) (st0 : SlabStorage) (addr : Nat)
      (k : Nat) (p : BasicArrayDataSlab × SlabStorage), k < n →
      (NewBasicArrayDataSlab st0 addr).1.runSlabOps
        (NewBasicArrayDataSlab st0 addr).2
        (((List.range n).reverse.map vf).map (fun w => SlabOp.insert 0 w)) =
          some p →
      p.1.get k = some (vf k)) := by
  constructor
  · intro a st i v h
    obtain ⟨hok, helems⟩ := insert_elements a st i v h
    have htk : (a.elements.take i).length = i := by
      simp
      omega
    refine ⟨hok, ?_, ?_, ?_⟩
    · rw [helems]
      rw [List.getElem?_append_right (by omega)]
      simp [htk]
    · intro k hk
      rw [helems]
      rw [List.getElem?_append_left (by omega)]
      exact List.getElem?_take_of_lt hk
    · intro k hk
      rw [helems]
      rw [List.getElem?_append_right (by omega)]
      rw [htk]
      have hsucc : k + 1 - i = (k - i) + 1 := by omega
      rw [hsucc]
      rw [List.getElem?_cons_succ]
      rw [List.getElem?_drop]
      congr 1
      omega
  · intro n vf st0 addr k p hk hrun
    obtain ⟨h', st', hrun'⟩ := runSlabOps_insert_zero_list
      ((List.range n).reverse.map vf) (NewBasicArrayDataSlab st0 addr).1
      (NewBasicArrayDataSlab st0 addr).2
    rw [hrun'] at hrun
    injection hrun with hrun
    rw [← hrun]
    have helems : (((List.range n).reverse.map vf).reverse ++
        (NewBasicArrayDataSlab st0 addr).1.elements) = (List.range n).map vf := by
      have h1 : (NewBasicArrayDataSlab st0 addr).1.elements = [] := rfl
      rw [h1, List.append_nil, ← List.map_reverse, List.reverse_reverse]
    unfold BasicArrayDataSlab.get
    have hlen : (((List.range n).reverse.map vf).reverse ++
        (NewBasicArrayDataSlab st0 addr).1.elements).length = n := by
      rw [helems]
      simp
    rw [dif_neg (by simp only [hlen]; omega)]
    congr 1
    have := List.get_of_eq helems ⟨k, by omega⟩
    rw [this]
    simp

theorem basicArray_insert_places_and_shifts_witness :
    (2 ≤ exampleSlab.elements.length ∧
      (exampleSlab.insert emptyStorage 2 (.uint64 9)).slab.elements[2]? =
        some (.uint64 9)) ∧
    ((1 : Nat) < 3 ∧
      (⟨⟨⟨1, 1⟩, 12, 3⟩, [.uint64 0, .uint64 1, .uint64 2]⟩ :
        BasicArrayDataSlab).get 1 = some (.uint64 1)) := by
  exact ⟨⟨by decide,
      (basicArray_insert_places_and_shifts.1 exampleSlab emptyStorage 2
        (.uint64 9) (by decide)).2.1⟩,
    ⟨by decide,
      basicArray_insert_places_and_shifts.2 3 (fun i => .uint64 i)
        emptyStorage 1 1
        (⟨⟨⟨1, 1⟩, 12, 3⟩, [.uint64 0, .uint64 1, .uint64 2]⟩,
         ⟨[(⟨1, 1⟩, .basicArray
            ⟨⟨⟨1, 1⟩, 12, 3⟩, [.uint64 0, .uint64 1, .uint64 2]⟩)], 1⟩)
        (by decide) (by decide)⟩⟩

theorem beBytes_length (w : Nat) : ∀ n : Nat, (beBytes w n).length = w := by
  induction w with
  | zero => intro n; rfl
  | succ w ih => intro n; simp [beBytes, ih]

theorem mod_pow_decomp (w n : Nat) :
    n % 256 ^ (w + 1) = (n / 256 ^ w % 256) * 256 ^ w + n % 256 ^ w := by
  rw [pow_succ, Nat.mod_mul]
  ring

theorem readBE_beBytes (w : Nat) :
    ∀ (n : Nat) (r : List Nat), readBE w (beBytes w n ++ r) =
      some (n % 256 ^ w, r) := by
  induction w with
  | zero => intro n r; simp [beBytes, readBE, Nat.mod_one]
  | succ w ih =>
    intro n r
    show (readBE w (beBytes w n ++ r)).map
      (fun p => ((n / 256 ^ w) % 256 * 256 ^ w + p.1, p.2)) = _
    rw [ih n r]
    simp only [Option.map_some']
    rw [← mod_pow_decomp]

theorem pow_dvd_pow_succ (w : Nat) : (256 : Nat) ^ w ∣ 256 ^ (w + 1) :=
  pow_dvd_pow 256 (by omega)

theorem beBytes_congr (w : Nat) : ∀ m n : Nat, m % 256 ^ w = n % 256 ^ w →
    beBytes w m = beBytes w n := by
  induction w with
  | zero => intro m n _; rfl
  | succ w ih =>
    intro m n h
    have hdiv : m / 256 ^ w % 256 = n / 256 ^ w % 256 := by
      have hm := mod_pow_decomp w m
      have hn := mod_pow_decomp w n
      have hmlt : m % 256 ^ w < 256 ^ w := Nat.mod_lt _ (by positivity)
      have hnlt : n % 256 ^ w < 256 ^ w := Nat.mod_lt _ (by positivity)
      have hmm : m % 256 ^ w = n % 256 ^ w := by
        have := congrArg (fun x => x % 256 ^ w) h
        simpa [Nat.mod_mod_of_dvd _ (pow_dvd_pow_succ w)] using this
      rw [h, hmm] at hm
      have hlt : 0 < (256 : Nat) ^ w := by positivity
      nlinarith [hm, hn]
    have hmod : m % 256 ^ w = n % 256 ^ w := by
      have := congrArg (fun x => x % 256 ^ w) h
      simpa [Nat.mod_mod_of_dvd _ (pow_dvd_pow_succ w)] using this
    show (m / 256 ^ w) % 256 :: beBytes w m = (n / 256 ^ w) % 256 :: beBytes w n
    rw [hdiv, ih m n hmod]

theorem beBytes_mod (w n : Nat) : beBytes w (n % 256 ^ w) = beBytes w n :=
  beBytes_congr w (n % 256 ^ w) n (Nat.mod_mod_of_dvd n dvd_rfl)

theorem encodeBytes_canonify (e : Storable) :
    (canonify e).encodeBytes = e.encodeBytes := by
  cases e with
  | uint64 v =>
    show encodeCBORUint (v % 2 ^ 64) = encodeCBORUint v
    unfold encodeCBORUint
    rw [Nat.mod_mod_of_dvd v dvd_rfl]
  | idPointer id =>
    show [0xd8, 0xff] ++ beBytes 8 (id.address % 2 ^ 64) ++
        beBytes 8 (id.index % 2 ^ 64) = _
    have h8 : (2 : Nat) ^ 64 = 256 ^ 8 := by norm_num
    rw [h8, beBytes_mod, beBytes_mod]
    rfl
  | slab h es => rfl

theorem encodeStorableListBytes_eq (es : List Storable) :
    encodeStorableListBytes es = (es.map Storable.encodeBytes).flatten := by
  induction es with
  | nil => rfl
  | cons e es ih =>
    show e.encodeBytes ++ encodeStorableListBytes es = _
    rw [ih]
    simp

theorem encodeBytes_slab (h : ArraySlabHeader) (es : List Storable) :
    Storable.encodeBytes (.slab h es) =
      BasicArrayDataSlab.encodeBytes ⟨h, es⟩ := by
  show [0x00, maskBasicArray ||| maskSlabRoot] ++
      ((0x80 ||| 27) :: beBytes 8 es.length) ++ encodeStorableListBytes es = _
  rw [encodeStorableListBytes_eq]
  rfl

theorem decodeArrayHead_cons (b : Nat) (r : List Nat) :
    decodeArrayHead (b :: r) =
      if 0x80 ≤ b ∧ b ≤ 0x97 then some (b - 0x80, r)
      else if b = 0x98 then readBE 1 r
      else if b = 0x99 then readBE 2 r
      else if b = 0x9a then readBE 4 r
      else if b = 0x9b then readBE 8 r
      else none := rfl

theorem decodeStorableBytes_cons (b : Nat) (r : List Nat) :
    decodeStorableBytes (b :: r) =
      if b < 24 then some (.uint64 b, r)
      else if b = 24 then
        (match r with
         | x :: r' => some (.uint64 x, r')
         | [] => none)
      else if b = 25 then (readBE 2 r).map (fun p => (.uint64 p.1, p.2))
      else if b = 26 then (readBE 4 r).map (fun p => (.uint64 p.1, p.2))
      else if b = 27 then (readBE 8 r).map (fun p => (.uint64 p.1, p.2))
      else if b = 0xd8 then
        (match r with
         | t :: r' =>
           if t = 0xff then
             match readBE 8 r' with
             | some (addr, r'') =>
               (readBE 8 r'').map (fun p => (.idPointer ⟨addr, p.1⟩, p.2))
             | none => none
           else none
         | [] => none)
      else none := rfl

theorem decodeStorable_encodeBytes (e : Storable) (r : List Nat)
    (he : e.inlineOrPointer = true) :
    decodeStorableBytes (e.encodeBytes ++ r) = some (canonify e, r) := by
  cases e with
  | uint64 v =>
    have hv' : v % 2 ^ 64 < 2 ^ 64 := Nat.mod_lt _ (by norm_num)
    show decodeStorableBytes (encodeCBORUint v ++ r) = some (.uint64 (v % 2 ^ 64), r)
    unfold encodeCBORUint
    by_cases h1 : v % 2 ^ 64 < 24
    · rw [if_pos h1]
      show decodeStorableBytes (v % 2 ^ 64 :: r) = _
      rw [decodeStorableBytes_cons, if_pos h1]
    · rw [if_neg h1]
      by_cases h2 : v % 2 ^ 64 < 256
      · rw [if_pos h2]
        show decodeStorableBytes (24 :: (v % 2 ^ 64 :: r)) = _
        rw [decodeStorableBytes_cons]
        rw [if_neg (by omega), if_pos rfl]
      · rw [if_neg h2]
        by_cases h3 : v % 2 ^ 64 < 65536
        · rw [if_pos h3]
          show decodeStorableBytes (25 :: (beBytes 2 (v % 2 ^ 64) ++ r)) = _
          rw [decodeStorableBytes_cons]
          rw [if_neg (by omega), if_neg (by omega), if_pos rfl]
          rw [readBE_beBytes]
          have hm : v % 2 ^ 64 % 256 ^ 2 = v % 2 ^ 64 :=
            Nat.mod_eq_of_lt (by norm_num at h3 ⊢; omega)
          rw [hm]
          rfl
        · rw [if_neg h3]
          by_cases h4 : v % 2 ^ 64 < 4294967296
          · rw [if_pos h4]
            show decodeStorableBytes (26 :: (beBytes 4 (v % 2 ^ 64) ++ r)) = _
            rw [decodeStorableBytes_cons]
            rw [if_neg (by omega), if_neg (by omega), if_neg (by omega), if_pos rfl]
            rw [readBE_beBytes]
            have hm : v % 2 ^ 64 % 256 ^ 4 = v % 2 ^ 64 :=
              Nat.mod_eq_of_lt (by norm_num at h4 ⊢; omega)
            rw [hm]
            rfl
          · rw [if_neg h4]
            show decodeStorableBytes (27 :: (beBytes 8 (v % 2 ^ 64) ++ r)) = _
            rw [decodeStorableBytes_cons]
            rw [if_neg (by omega), if_neg (by omega), if_neg (by omega),
              if_neg (by omega), if_pos rfl]
            rw [readBE_beBytes]
            have hm : v % 2 ^ 64 % 256 ^ 8 = v % 2 ^ 64 :=
              Nat.mod_eq_of_lt (by norm_num; omega)
            rw [hm]
            rfl
  | idPointer id =>
    show decodeStorableBytes (([0xd8, 0xff] ++ beBytes 8 id.address ++
      beBytes 8 id.index) ++ r) = _
    have hassoc : ([0xd8, 0xff] ++ beBytes 8 id.address ++
        beBytes 8 id.index) ++ r =
        0xd8 :: (0xff :: (beBytes 8 id.address ++ (beBytes 8 id.index ++ r))) := by
      simp
    rw [hassoc]
    rw [decodeStorableBytes_cons]
    rw [if_neg (by omega), if_neg (by omega), if_neg (by omega),
      if_neg (by omega), if_neg (by omega), if_pos rfl]
    show (if (0xff : Nat) = 0xff then
      (match readBE 8 (beBytes 8 id.address ++ (beBytes 8 id.index ++ r)) with
       | some (addr, r'') =>
         (readBE 8 r'').map (fun p => (Storable.idPointer ⟨addr, p.1⟩, p.2))
       | none => none)
      else none) = _
    rw [if_pos rfl]
    rw [readBE_beBytes]
    show (readBE 8 (beBytes 8 id.index ++ r)).map _ = _
    rw [readBE_beBytes]
    have h8 : (256 : Nat) ^ 8 = 2 ^ 64 := by norm_num
    simp only [Option.map_some']
    rw [h8]
    rfl
  | slab h es => simp [Storable.inlineOrPointer] at he

theorem decodeElements_encodeBytes (l : List Storable) (r : List Nat)
    (hl : ∀ e ∈ l, e.inlineOrPointer = true) :
    decodeElements l.length ((l.map Storable.encodeBytes).flatten ++ r) =
      some (l.map canonify, r) := by
  induction l with
  | nil => rfl
  | cons e l ih =>
    show decodeElements (l.length + 1)
      ((e.encodeBytes ++ (l.map Storable.encodeBytes).flatten) ++ r) = _
    rw [List.append_assoc]
    show (match decodeStorableBytes
        (e.encodeBytes ++ ((l.map Storable.encodeBytes).flatten ++ r)) with
      | none => none
      | some (s, r1) =>
        match decodeElements l.length r1 with
        | none => none
        | some (l1, r2) => some (s :: l1, r2)) = _
    rw [decodeStorable_encodeBytes _ _ (hl e (by simp))]
    show (match decodeElements l.length
        ((l.map Storable.encodeBytes).flatten ++ r) with
      | none => none
      | some (l1, r2) => some (canonify e :: l1, r2)) = _
    rw [ih (fun e' he' => hl e' (by simp [he']))]
    rfl

/-- Claim C2 (amended): decoding the bytes produced by `Encode` on a
`BasicArrayDataSlab` whose elements are inline values or SlabID pointers via
`newBasicArrayDataSlabFromData` succeeds, and re-encoding the decoded slab
reproduces the original bytes exactly.  (The length hypothesis bounds the
element count by `2 ^ 63`, the maximum length of a Go slice; the
`inlineOrPointer` hypothesis excludes inline nested container slabs, whose
raw bytes the element codec cannot read back — see the counterexample.) -/
theorem basicArray_encode_decode_roundtrip (a : BasicArrayDataSlab)
    (id : StorageID) (h : a.elements.length < 2 ^ 63)
    (hin : ∀ e ∈ a.elements, e.inlineOrPointer = true) :
    (newBasicArrayDataSlabFromData id a.encodeBytes).map
      BasicArrayDataSlab.encodeBytes = some a.encodeBytes := by
  have hdata : a.encodeBytes = 0x00 :: 0x83 :: 0x9b ::
      (beBytes 8 a.elements.length ++
        (a.elements.map Storable.encodeBytes).flatten) := rfl
  have hlen : ¬ a.encodeBytes.length < 2 := by
    rw [hdata]
    simp
  unfold newBasicArrayDataSlabFromData
  rw [if_neg hlen]
  have hgetD : a.encodeBytes.getD 1 0 = 131 := by
    rw [hdata]
    rfl
  have hflag : getSlabArrayType (a.encodeBytes.getD 1 0) = .basicArray := by
    rw [hgetD]
    rfl
  rw [if_neg (by rw [hflag]; simp)]
  have hdrop : a.encodeBytes.drop 2 = 0x9b ::
      (beBytes 8 a.elements.length ++
        (a.elements.map Storable.encodeBytes).flatten) := by
    rw [hdata]
    rfl
  rw [hdrop]
  have hhead : decodeArrayHead (0x9b ::
      (beBytes 8 a.elements.length ++
        (a.elements.map Storable.encodeBytes).flatten)) =
      some (a.elements.length, (a.elements.map Storable.encodeBytes).flatten) := by
    rw [decodeArrayHead_cons]
    rw [if_neg (by omega), if_neg (by omega), if_neg (by omega),
      if_neg (by omega), if_pos rfl]
    rw [readBE_beBytes]
    have hm : a.elements.length % 256 ^ 8 = a.elements.length :=
      Nat.mod_eq_of_lt (by norm_num at h ⊢; omega)
    rw [hm]
  rw [hhead]
  have helems := decodeElements_encodeBytes a.elements [] hin
  rw [List.append_nil] at helems
  show Option.map BasicArrayDataSlab.encodeBytes
    (match decodeElements a.elements.length
        ((a.elements.map Storable.encodeBytes).flatten) with
      | none => none
      | some (elements, _) =>
        some { header := { id := id, size := a.encodeBytes.length % 2 ^ 32,
                           count := a.elements.length % 2 ^ 32 },
               elements := elements }) = some a.encodeBytes
  rw [helems]
  show some (BasicArrayDataSlab.encodeBytes
    { header := { id := id, size := a.encodeBytes.length % 2 ^ 32,
                  count := a.elements.length % 2 ^ 32 },
      elements := a.elements.map canonify }) = some a.encodeBytes
  congr 1
  show BasicArrayDataSlab.encodeBytes _ = a.encodeBytes
  rw [hdata]
  show (0x00 : Nat) :: 0x83 :: 0x9b ::
      (beBytes 8 (a.elements.map canonify).length ++
        ((a.elements.map canonify).map Storable.encodeBytes).flatten) = _
  rw [List.length_map]
  rw [List.map_map]
  rw [show Storable.encodeBytes ∘ canonify = Storable.encodeBytes from
    funext encodeBytes_canonify]

theorem basicArray_encode_decode_roundtrip_witness :
    (exampleSlab.elements.length < 2 ^ 63 ∧
      ∀ e ∈ exampleSlab.elements, e.inlineOrPointer = true) ∧
    (newBasicArrayDataSlabFromData ⟨1, 2⟩ exampleSlab.encodeBytes).map
      BasicArrayDataSlab.encodeBytes = some exampleSlab.encodeBytes := by
  exact ⟨⟨by norm_num [exampleSlab], by decide⟩,
    basicArray_encode_decode_roundtrip exampleSlab ⟨1, 2⟩
      (by norm_num [exampleSlab]) (by decide)⟩

/-- Claim C2 (counterexample): on a slab holding an inline nested array slab
— a state reachable through `BasicArray.Storable`, which stores a nested
array's root slab itself as the element — the round trip fails: `Encode`
emits the nested slab's raw bytes inline, the element decoder reads the
nested version byte `0x00` as the CBOR integer 0, and re-encoding the
decoded slab yields different bytes. -/
theorem basicArray_roundtrip_nested_counterexample :
    nestedExample.elements.length < 2 ^ 63 ∧
    (newBasicArrayDataSlabFromData ⟨1, 2⟩ nestedExample.encodeBytes).map
      BasicArrayDataSlab.encodeBytes ≠ some nestedExample.encodeBytes := by
  refine ⟨by norm_num [nestedExample], ?_⟩
  decide

theorem get_some_bound (a : BasicArrayDataSlab) (i : Nat) (s : Storable)
    (h : a.get i = some s) : i < a.elements.length := by
  unfold BasicArrayDataSlab.get at h
  by_contra hc
  rw [dif_pos (by omega)] at h
  exact absurd h (by simp)

theorem get_eq (a : BasicArrayDataSlab) (i : Nat) (h : i < a.elements.length) :
    a.get i = a.elements[i]? := by
  unfold BasicArrayDataSlab.get
  rw [dif_neg (by omega)]
  rw [List.getElem?_eq_getElem h]
  rfl

theorem remove_storage (a : BasicArrayDataSlab) (st : SlabStorage) (i : Nat)
    (h : ¬ a.elements.length ≤ i) :
    (a.remove st i).1.storage =
      st.store a.header.id (.basicArray (a.remove st i).1.slab) := by
  unfold BasicArrayDataSlab.remove
  rw [dif_neg h]

theorem remove_last (a : BasicArrayDataSlab) (st : SlabStorage) (n : Nat)
    (h : a.elements.length = n + 1) :
    (a.remove st n).1.ok = true ∧
    (a.remove st n).1.slab.elements = a.elements.take n ∧
    (a.remove st n).1.slab.header.id = a.header.id ∧
    (a.remove st n).2 = a.elements[n]? := by
  unfold BasicArrayDataSlab.remove
  rw [dif_neg (by omega)]
  refine ⟨rfl, ?_, rfl, ?_⟩
  · show (if n = 0 then a.elements.drop 1
      else if n = a.elements.length - 1 then a.elements.take (a.elements.length - 1)
      else a.elements.take n ++ a.elements.drop (n + 1)) = _
    by_cases hn : n = 0
    · subst hn
      rw [if_pos rfl]
      have : a.elements.length ≤ 1 := by omega
      rw [List.drop_eq_nil_iff.mpr this, List.take_zero]
    · rw [if_neg hn, if_pos (by omega)]
      congr 1
      omega
  · show some (a.elements.get ⟨n, by omega⟩) = _
    rw [List.getElem?_eq_getElem (by omega)]
    rfl

theorem deepRemoveLoop_base (fuel : Nat) (a : BasicArrayDataSlab)
    (st : SlabStorage) : deepRemoveLoop fuel 0 a st = some (a, st) := by
  cases fuel <;> rfl

theorem deepRemoveValue_uint64 (fuel v : Nat) (st : SlabStorage) :
    Value.deepRemoveValue fuel (.uint64 v) st = some st := rfl

theorem deepRemoveValue_array (fuel : Nat) (root : BasicArrayDataSlab)
    (st : SlabStorage) :
    Value.deepRemoveValue fuel (.array root) st =
      match deepRemoveLoop fuel root.count root st with
      | none => none
      | some pr => some (pr.2.removeSlab pr.1.header.id) := rfl

theorem deepRemoveLoop_succ (fuel n : Nat) (a : BasicArrayDataSlab)
    (st : SlabStorage) :
    deepRemoveLoop (fuel + 1) (n + 1) a st =
      match a.get n with
      | none => none
      | some storable =>
        match (a.remove st n).2 with
        | none => none
        | some storable2 =>
          match storable2.storedValue (a.remove st n).1.storage with
          | none => none
          | some value =>
            match Value.deepRemoveValue fuel value (a.remove st n).1.storage with
            | none => none
            | some st1 =>
              deepRemoveLoop fuel n (a.remove st n).1.slab
                (storable.deepRemoveStorable st1) := rfl

theorem deepRemoveLoop_succ_of_some (fuel n : Nat) (a : BasicArrayDataSlab)
    (st : SlabStorage) (storable storable2 : Storable) (value : Value)
    (st1 : SlabStorage)
    (hg : a.get n = some storable) (hr2 : (a.remove st n).2 = some storable2)
    (hsv : storable2.storedValue (a.remove st n).1.storage = some value)
    (hvd : Value.deepRemoveValue fuel value (a.remove st n).1.storage = some st1) :
    deepRemoveLoop (fuel + 1) (n + 1) a st =
      deepRemoveLoop fuel n (a.remove st n).1.slab
        (storable.deepRemoveStorable st1) := by
  rw [deepRemoveLoop_succ, hg]
  show (match (a.remove st n).2 with
    | none => none
    | some storable2 =>
      match storable2.storedValue (a.remove st n).1.storage with
      | none => none
      | some value =>
        match Value.deepRemoveValue fuel value (a.remove st n).1.storage with
        | none => none
        | some st1 =>
          deepRemoveLoop fuel n (a.remove st n).1.slab
            (storable.deepRemoveStorable st1)) = _
  rw [hr2]
  show (match storable2.storedValue (a.remove st n).1.storage with
    | none => none
    | some value =>
      match Value.deepRemoveValue fuel value (a.remove st n).1.storage with
      | none => none
      | some st1 =>
        deepRemoveLoop fuel n (a.remove st n).1.slab
          (storable.deepRemoveStorable st1)) = _
  rw [hsv]
  show (match Value.deepRemoveValue fuel value (a.remove st n).1.storage with
    | none => none
    | some st1 =>
      deepRemoveLoop fuel n (a.remove st n).1.slab
        (storable.deepRemoveStorable st1)) = _
  rw [hvd]

theorem deepRemoveLoop_succ_get_none (fuel n : Nat) (a : BasicArrayDataSlab)
    (st : SlabStorage) (hg : a.get n = none) :
    deepRemoveLoop (fuel + 1) (n + 1) a st = none := by
  rw [deepRemoveLoop_succ, hg]

theorem deepRemoveLoop_succ_remove_none (fuel n : Nat)
    (a : BasicArrayDataSlab) (st : SlabStorage) (storable : Storable)
    (hg : a.get n = some storable) (hr2 : (a.remove st n).2 = none) :
    deepRemoveLoop (fuel + 1) (n + 1) a st = none := by
  rw [deepRemoveLoop_succ, hg]
  show (match (a.remove st n).2 with
    | none => none
    | some storable2 =>
      match storable2.storedValue (a.remove st n).1.storage with
      | none => none
      | some value =>
        match Value.deepRemoveValue fuel value (a.remove st n).1.storage with
        | none => none
        | some st1 =>
          deepRemoveLoop fuel n (a.remove st n).1.slab
            (storable.deepRemoveStorable st1)) = _
  rw [hr2]

theorem deepRemoveLoop_succ_value_none (fuel n : Nat)
    (a : BasicArrayDataSlab) (st : SlabStorage) (storable storable2 : Storable)
    (hg : a.get n = some storable) (hr2 : (a.remove st n).2 = some storable2)
    (hsv : storable2.storedValue (a.remove st n).1.storage = none) :
    deepRemoveLoop (fuel + 1) (n + 1) a st = none := by
  rw [deepRemoveLoop_succ, hg]
  show (match (a.remove st n).2 with
    | none => none
    | some storable2 =>
      match storable2.storedValue (a.remove st n).1.storage with
      | none => none
      | some value =>
        match Value.deepRemoveValue fuel value (a.remove st n).1.storage with
        | none => none
        | some st1 =>
          deepRemoveLoop fuel n (a.remove st n).1.slab
            (storable.deepRemoveStorable st1)) = _
  rw [hr2]
  show (match storable2.storedValue (a.remove st n).1.storage with
    | none => none
    | some value =>
      match Value.deepRemoveValue fuel value (a.remove st n).1.storage with
      | none => none
      | some st1 =>
        deepRemoveLoop fuel n (a.remove st n).1.slab
          (storable.deepRemoveStorable st1)) = _
  rw [hsv]

theorem deepRemoveLoop_succ_drain_none (fuel n : Nat)
    (a : BasicArrayDataSlab) (st : SlabStorage) (storable storable2 : Storable)
    (value : Value)
    (hg : a.get n = some storable) (hr2 : (a.remove st n).2 = some storable2)
    (hsv : storable2.storedValue (a.remove st n).1.storage = some value)
    (hvd : Value.deepRemoveValue fuel value (a.remove st n).1.storage = none) :
    deepRemoveLoop (fuel + 1) (n + 1) a st = none := by
  rw [deepRemoveLoop_succ, hg]
  show (match (a.remove st n).2 with
    | none => none
    | some storable2 =>
      match storable2.storedValue (a.remove st n).1.storage with
      | none => none
      | some value =>
        match Value.deepRemoveValue fuel value (a.remove st n).1.storage with
        | none => none
        | some st1 =>
          deepRemoveLoop fuel n (a.remove st n).1.slab
            (storable.deepRemoveStorable st1)) = _
  rw [hr2]
  show (match storable2.storedValue (a.remove st n).1.storage with
    | none => none
    | some value =>
      match Value.deepRemoveValue fuel value (a.remove st n).1.storage with
      | none => none
      | some st1 =>
        deepRemoveLoop fuel n (a.remove st n).1.slab
          (storable.deepRemoveStorable st1)) = _
  rw [hsv]
  show (match Value.deepRemoveValue fuel value (a.remove st n).1.storage with
    | none => none
    | some st1 =>
      deepRemoveLoop fuel n (a.remove st n).1.slab
        (storable.deepRemoveStorable st1)) = _
  rw [hvd]

theorem deepRemoveStorable_none_preserved (s : Storable) (st : SlabStorage)
    (q : StorageID) (h : st.retrieve q = none) :
    (s.deepRemoveStorable st).retrieve q = none := by
  cases s with
  | uint64 v => exact h
  | idPointer id =>
    show (st.removeSlab id).retrieve q = none
    by_cases hq : q = id
    · rw [hq]
      exact retrieve_removeSlab_self _ _
    · rw [retrieve_removeSlab_other _ _ _ hq]
      exact h
  | slab hd es =>
    show (st.removeSlab hd.id).retrieve q = none
    by_cases hq : q = hd.id
    · rw [hq]
      exact retrieve_removeSlab_self _ _
    · rw [retrieve_removeSlab_other _ _ _ hq]
      exact h

theorem deepRemoveLoop_id (fuel : Nat) :
    ∀ (n : Nat) (a : BasicArrayDataSlab) (st : SlabStorage)
      (p : BasicArrayDataSlab × SlabStorage),
      deepRemoveLoop fuel n a st = some p → p.1.header.id = a.header.id := by
  induction fuel with
  | zero =>
    intro n a st p hp
    cases n with
    | zero =>
      rw [deepRemoveLoop_base] at hp
      injection hp with hp
      rw [← hp]
    | succ n => exact absurd hp (by simp [deepRemoveLoop])
  | succ fuel ih =>
    intro n a st p hp
    cases n with
    | zero =>
      rw [deepRemoveLoop_base] at hp
      injection hp with hp
      rw [← hp]
    | succ n =>
      cases hg : a.get n with
      | none =>
        rw [deepRemoveLoop_succ_get_none fuel n a st hg] at hp
        exact absurd hp (by simp)
      | some storable =>
        cases hr2 : (a.remove st n).2 with
        | none =>
          rw [deepRemoveLoop_succ_remove_none fuel n a st storable hg hr2] at hp
          exact absurd hp (by simp)
        | some storable2 =>
          cases hsv : storable2.storedValue (a.remove st n).1.storage with
          | none =>
            rw [deepRemoveLoop_succ_value_none fuel n a st storable storable2
              hg hr2 hsv] at hp
            exact absurd hp (by simp)
          | some value =>
            cases hvd : Value.deepRemoveValue fuel value
                (a.remove st n).1.storage with
            | none =>
              rw [deepRemoveLoop_succ_drain_none fuel n a st storable storable2
                value hg hr2 hsv hvd] at hp
              exact absurd hp (by simp)
            | some st1 =>
              rw [deepRemoveLoop_succ_of_some fuel n a st storable storable2
                value st1 hg hr2 hsv hvd] at hp
              rw [ih n _ _ p hp]
              exact remove_header_id a st n

theorem deepRemoveLoop_frame (fuel : Nat) :
    ∀ (n : Nat) (a : BasicArrayDataSlab) (st : SlabStorage)
      (p : BasicArrayDataSlab × SlabStorage) (q : StorageID),
      deepRemoveLoop fuel n a st = some p → q ≠ a.header.id →
      st.retrieve q = none → p.2.retrieve q = none := by
  induction fuel with
  | zero =>
    intro n a st p q hp hq hnone
    cases n with
    | zero =>
      rw [deepRemoveLoop_base] at hp
      injection hp with hp
      rw [← hp]
      exact hnone
    | succ n => exact absurd hp (by simp [deepRemoveLoop])
  | succ fuel ih =>
    intro n a st p q hp hq hnone
    cases n with
    | zero =>
      rw [deepRemoveLoop_base] at hp
      injection hp with hp
      rw [← hp]
      exact hnone
    | succ n =>
      cases hg : a.get n with
      | none =>
        rw [deepRemoveLoop_succ_get_none fuel n a st hg] at hp
        exact absurd hp (by simp)
      | some storable =>
        cases hr2 : (a.remove st n).2 with
        | none =>
          rw [deepRemoveLoop_succ_remove_none fuel n a st storable hg hr2] at hp
          exact absurd hp (by simp)
        | some storable2 =>
          cases hsv : storable2.storedValue (a.remove st n).1.storage with
          | none =>
            rw [deepRemoveLoop_succ_value_none fuel n a st storable storable2
              hg hr2 hsv] at hp
            exact absurd hp (by simp)
          | some value =>
            cases hvd : Value.deepRemoveValue fuel value
                (a.remove st n).1.storage with
            | none =>
              rw [deepRemoveLoop_succ_drain_none fuel n a st storable storable2
                value hg hr2 hsv hvd] at hp
              exact absurd hp (by simp)
            | some st1 =>
              rw [deepRemoveLoop_succ_of_some fuel n a st storable storable2
                value st1 hg hr2 hsv hvd] at hp
              have hbound := get_some_bound a n storable hg
              have hid := remove_header_id a st n
              have hstor := remove_storage a st n (by omega)
              have h0 : (a.remove st n).1.storage.retrieve q = none := by
                rw [hstor, retrieve_store_other _ _ _ _ hq]
                exact hnone
              have h1 : st1.retrieve q = none := by
                cases value with
                | uint64 v =>
                  rw [deepRemoveValue_uint64] at hvd
                  injection hvd with hvd
                  rw [← hvd]
                  exact h0
                | array root =>
                  rw [deepRemoveValue_array] at hvd
                  cases hl : deepRemoveLoop fuel root.count root
                      (a.remove st n).1.storage with
                  | none => rw [hl] at hvd; exact absurd hvd (by simp)
                  | some pr =>
                    rw [hl] at hvd
                    injection hvd with hvd
                    rw [← hvd]
                    by_cases hqr : q = pr.1.header.id
                    · rw [hqr]
                      exact retrieve_removeSlab_self _ _
                    · rw [retrieve_removeSlab_other _ _ _ hqr]
                      have hrid := deepRemoveLoop_id fuel root.count root
                        (a.remove st n).1.storage pr hl
                      exact ih root.count root _ pr q hl
                        (by rw [hrid] at hqr; exact hqr) h0
              refine ih n _ _ p q hp (by rw [hid]; exact hq) ?_
              exact deepRemoveStorable_none_preserved storable st1 q h1

theorem deepRemoveLoop_spec (fuel : Nat) :
    ∀ (n : Nat) (a : BasicArrayDataSlab) (st : SlabStorage)
      (p : BasicArrayDataSlab × SlabStorage),
      a.elements.length = n → deepRemoveLoop fuel n a st = some p →
      p.1.elements = [] ∧ p.1.header.id = a.header.id ∧
      (∀ i, Storable.idPointer i ∈ a.elements → i ≠ a.header.id →
        p.2.retrieve i = none) ∧
      (∀ hd es, Storable.slab hd es ∈ a.elements → hd.id ≠ a.header.id →
        p.2.retrieve hd.id = none) := by
  induction fuel with
  | zero =>
    intro n a st p hlen hp
    cases n with
    | zero =>
      rw [deepRemoveLoop_base] at hp
      injection hp with hp
      have hnil : a.elements = [] := List.length_eq_zero.mp hlen
      rw [← hp]
      refine ⟨hnil, rfl, ?_, ?_⟩
      · intro i hi
        rw [hnil] at hi
        exact absurd hi (by simp)
      · intro hd es hi
        rw [hnil] at hi
        exact absurd hi (by simp)
    | succ n => exact absurd hp (by simp [deepRemoveLoop])
  | succ fuel ih =>
    intro n a st p hlen hp
    cases n with
    | zero =>
      rw [deepRemoveLoop_base] at hp
      injection hp with hp
      have hnil : a.elements = [] := List.length_eq_zero.mp hlen
      rw [← hp]
      refine ⟨hnil, rfl, ?_, ?_⟩
      · intro i hi
        rw [hnil] at hi
        exact absurd hi (by simp)
      · intro hd es hi
        rw [hnil] at hi
        exact absurd hi (by simp)
    | succ n =>
      cases hg : a.get n with
      | none =>
        rw [deepRemoveLoop_succ_get_none fuel n a st hg] at hp
        exact absurd hp (by simp)
      | some storable =>
        cases hr2 : (a.remove st n).2 with
        | none =>
          rw [deepRemoveLoop_succ_remove_none fuel n a st storable hg hr2] at hp
          exact absurd hp (by simp)
        | some storable2 =>
          cases hsv : storable2.storedValue (a.remove st n).1.storage with
          | none =>
            rw [deepRemoveLoop_succ_value_none fuel n a st storable storable2
              hg hr2 hsv] at hp
            exact absurd hp (by simp)
          | some value =>
            cases hvd : Value.deepRemoveValue fuel value
                (a.remove st n).1.storage with
            | none =>
              rw [deepRemoveLoop_succ_drain_none fuel n a st storable storable2
                value hg hr2 hsv hvd] at hp
              exact absurd hp (by simp)
            | some st1 =>
              rw [deepRemoveLoop_succ_of_some fuel n a st storable storable2
                value st1 hg hr2 hsv hvd] at hp
              obtain ⟨-, helems, hid, hval⟩ := remove_last a st n hlen
              have hlen1 : (a.remove st n).1.slab.elements.length = n := by
                rw [helems]
                simp
                omega
              obtain ⟨hpelems, hpid, hptr, hslab⟩ := ih n _ _ p hlen1 hp
              have hsplit : a.elements =
                  a.elements.take n ++ [a.elements.get ⟨n, by omega⟩] := by
                conv_lhs => rw [← List.take_append_drop n a.elements]
                congr 1
                rw [List.drop_eq_getElem_cons (by omega)]
                have hnil : a.elements.drop (n + 1) = [] :=
                  List.drop_eq_nil_iff.mpr (by omega)
                rw [hnil]
                rfl
              have hgv : storable = a.elements.get ⟨n, by omega⟩ := by
                rw [get_eq a n (by omega), List.getElem?_eq_getElem (by omega)] at hg
                injection hg with hg
                rw [← hg]
                rfl
              refine ⟨hpelems, by rw [hpid, hid], ?_, ?_⟩
              · intro i hi hne
                rw [hsplit] at hi
                rcases List.mem_append.mp hi with hmem | hmem
                · rw [← helems] at hmem
                  exact hptr i hmem (by rw [hid]; exact hne)
                · have hvi : storable = Storable.idPointer i := by
                    rw [hgv]
                    exact (List.mem_singleton.mp hmem).symm
                  refine deepRemoveLoop_frame fuel n _ _ p i hp
                    (by rw [hid]; exact hne) ?_
                  rw [hvi]
                  show (st1.removeSlab i).retrieve i = none
                  exact retrieve_removeSlab_self _ _
              · intro hd es hi hne
                rw [hsplit] at hi
                rcases List.mem_append.mp hi with hmem | hmem
                · rw [← helems] at hmem
                  exact hslab hd es hmem (by rw [hid]; exact hne)
                · have hvi : storable = Storable.slab hd es := by
                    rw [hgv]
                    exact (List.mem_singleton.mp hmem).symm
                  refine deepRemoveLoop_frame fuel n _ _ p hd.id hp
                    (by rw [hid]; exact hne) ?_
                  rw [hvi]
                  show (st1.removeSlab hd.id).retrieve hd.id = none
                  exact retrieve_removeSlab_self _ _

/-- Claim C8: when `BasicArray.DeepRemove` succeeds on an array (within the
given recursion fuel — the Go recursion is unbounded and diverges on cyclic
storage references, so every terminating run is captured at some fuel), every
element has been drained from the array (the loop removes the last index
first, down to index 0, leaving the root slab empty with its id intact) and
deep-removed: a `Uint64Value` frees nothing, a nested array value — whether
reached through an inline nested slab element or through a pointer to a
nested root in storage — is recursively drained and its root slab removed,
a pointer storable's referenced slab is removed from storage, an inline
nested slab's own id is removed from storage, and finally the root slab
itself has been removed from storage. -/
theorem basicArray_deepRemove_spec (fuel : Nat) (a : BasicArray)
    (st st' : SlabStorage) (h : BasicArray.deepRemove fuel a st = some st') :
    st'.retrieve a.storageID = none ∧
    (∀ i, Storable.idPointer i ∈ a.root.elements → st'.retrieve i = none) ∧
    (∀ hd es, Storable.slab hd es ∈ a.root.elements →
      st'.retrieve hd.id = none) ∧
    (∀ p, deepRemoveLoop fuel a.root.count a.root st = some p →
      p.1.elements = [] ∧ p.1.header.id = a.root.header.id) := by
  unfold BasicArray.deepRemove at h
  cases hl : deepRemoveLoop fuel a.root.count a.root st with
  | none => rw [hl] at h; exact absurd h (by simp)
  | some p =>
    rw [hl] at h
    injection h with h
    obtain ⟨hpelems, hpid, hptr, hslab⟩ :=
      deepRemoveLoop_spec fuel a.root.count a.root st p rfl hl
    refine ⟨?_, ?_, ?_, ?_⟩
    · rw [← h, hpid]
      exact retrieve_removeSlab_self _ _
    · intro i hi
      by_cases hne : i = a.root.header.id
      · rw [← h, hpid, hne]
        exact retrieve_removeSlab_self _ _
      · rw [← h, hpid]
        rw [retrieve_removeSlab_other _ _ _ hne]
        exact hptr i hi hne
    · intro hd es hi
      by_cases hne : hd.id = a.root.header.id
      · rw [← h, hpid, hne]
        exact retrieve_removeSlab_self _ _
      · rw [← h, hpid]
        rw [retrieve_removeSlab_other _ _ _ hne]
        exact hslab hd es hi hne
    · intro q hq
      injection hq with hq
      rw [← hq]
      exact ⟨hpelems, hpid⟩

theorem basicArray_deepRemove_spec_witness :
    BasicArray.deepRemove 10 { root := exampleDeepSlab } exampleDeepStorage =
      some ⟨[], 4⟩ ∧
    (⟨[], 4⟩ : SlabStorage).retrieve (⟨2, 2⟩ : StorageID) = none := by
  exact ⟨by decide,
    (basicArray_deepRemove_spec 10 { root := exampleDeepSlab }
      exampleDeepStorage ⟨[], 4⟩ (by decide)).2.1 ⟨2, 2⟩ (by decide)⟩

/-- Claim C10: `Split`, `Merge`, `LendToRight`, `BorrowFromRight` on a
`BasicArrayDataSlab` return an error for every input and never modify the
receiver or the storage; consequently a basic array never rebalances and its
single data slab's `header.size` can grow past `maxThreshold` (witnessed by
2000 successful inserts from a fresh slab). -/
theorem basicArray_never_rebalances (a : BasicArrayDataSlab)
    (st : SlabStorage) (b : Slab) :
    ((a.split st).2.toOption = none ∧ (a.split st).1 = (a, st)) ∧
    ((a.merge b).2.toOption = none ∧ (a.merge b).1 = a) ∧
    ((a.lendToRight b).2.toOption = none ∧ (a.lendToRight b).1 = a) ∧
    ((a.borrowFromRight b).2.toOption = none ∧ (a.borrowFromRight b).1 = a) ∧
    (∃ p, exampleNew.1.runSlabOps exampleNew.2
        (List.replicate 2000 (.insert 0 (.uint64 0))) = some p ∧
      maxThreshold < p.1.header.size) := by
  refine ⟨⟨rfl, rfl⟩, ⟨rfl, rfl⟩, ⟨rfl, rfl⟩, ⟨rfl, rfl⟩, ?_⟩
  refine ⟨_, runSlabOps_insert_zeros 2000 exampleNew.1 exampleNew.2 (by omega), ?_⟩
  show maxThreshold < (9 + 2000) % 2 ^ 32
  norm_num [maxThreshold, targetThreshold]

end Atree
